import Mathlib

/-!
Shallow embedding of the CBIT-AiForge hybrid retrieval core
(`backend/app/core/`): the question expander (`qa_expansion.py`), the
fixed-Q&A / knowledge-base / web retrievers and fusion dispatcher
(`hybrid_retrieval_engine.py`), the accurate-priority confidence-tier
strategy (`accurate_priority_strategy.py`), the Tavily result normalizer
(`tavily_search.py`) and the cosine-similarity utility
(`embedding_engine.py`).

Python dictionaries with optional keys are embedded as structures with
`Option` fields (`none` = key absent); `dict.get(k, d)` becomes
`Option.getD`.  Scores are embedded as exact rationals (`ℚ`); the two
places where the Python code takes a floating-point square root
(`_calculate_std_dev` and the vector norm) are handled by decidable
squared comparisons together with proved characterisations in terms of
`Real.sqrt`.  External collaborators (embedding provider, vector index,
web search transport, Python `set` iteration order) enter as explicit
function parameters.  Python string operations are implemented over
`String.data` character lists so that they evaluate inside the kernel.
-/

namespace CBIT

/-! ### Python string primitives (over `List Char`) -/

/-- Character-list prefix test, `l₁` a prefix of `l₂`. -/
def hasPrefixL : List Char → List Char → Bool
  | [], _ => true
  | _ :: _, [] => false
  | p :: ps, c :: cs => p == c && hasPrefixL ps cs

/-- Python `pat in s` on character lists (empty pattern always matches). -/
def containsL (pat : List Char) : List Char → Bool
  | [] => pat == []
  | c :: cs => hasPrefixL pat (c :: cs) || containsL pat cs

/-- Python `pat in s` for strings. -/
def containsStr (s pat : String) : Bool := containsL pat.data s.data

/-- Python `s.lower()`. -/
def lowerStr (s : String) : String := ⟨s.data.map Char.toLower⟩

/-- Take the first `n` characters (Python `s[:n]`). -/
def takeChars : Nat → List Char → List Char
  | 0, _ => []
  | _, [] => []
  | n + 1, c :: cs => c :: takeChars n cs

/-- Python `s[:n]` for strings. -/
def takeStr (s : String) (n : Nat) : String := ⟨takeChars n s.data⟩

/-- Python `len(s)` (character count). -/
def strLen (s : String) : Nat := s.data.length

/-- Python whitespace test used by `str.strip()`. -/
def isPySpace (c : Char) : Bool := c == ' ' || c == '\t' || c == '\n' || c == '\r'

/-- Python `s.strip()`. -/
def stripStr (s : String) : String :=
  ⟨((s.data.dropWhile isPySpace).reverse.dropWhile isPySpace).reverse⟩

/-- Split off the text before and after the first occurrence of `sep`. -/
def splitFirstAt (sep : List Char) : List Char → Option (List Char × List Char)
  | [] => if sep = [] then some ([], []) else none
  | c :: cs =>
    if hasPrefixL sep (c :: cs) then some ([], List.drop sep.length (c :: cs))
    else match splitFirstAt sep cs with
      | some (pre, post) => some (c :: pre, post)
      | none => none

/-- Scanner of `replaceAllCI`: in state `skip = 0` look for a
case-insensitive match of `pat` at the current position (emitting `rep`
and entering skip mode over the matched characters), in state
`skip = n+1` drop one already-matched character.  Structmember recursion on
the character list keeps the function kernel-reducible. -/
def replaceSkip (pat rep : List Char) : Nat → List Char → List Char
  | _, [] => []
  | 0, c :: cs =>
    if pat ≠ [] ∧ hasPrefixL (pat.map Char.toLower) ((c :: cs).map Char.toLower) then
      rep ++ replaceSkip pat rep (pat.length - 1) cs
    else
      c :: replaceSkip pat rep 0 cs
  | n + 1, _ :: cs => replaceSkip pat rep n cs

/-- Case-insensitive replace-all of a literal pattern, modelling
`re.sub(pat, rep, s, flags=re.IGNORECASE)` for metacharacter-free `pat`:
scan left to right, replace each match, resume after the replacement. -/
def replaceAllCI (pat rep : List Char) (l : List Char) : List Char :=
  replaceSkip pat rep 0 l

/-! ### `qa_expansion.py` — QAExpansion -/

/-- `QAExpansion.ABBREVIATION_MAP`, in Python dict insertion order. -/
def abbreviationMap : List (String × List String) :=
  [ ("sme", ["经管学院", "理工学院经管学部", "经济管理学院"])
  , ("经管", ["经管学院", "经济管理学院"])
  , ("cuhksz", ["香港中文大学（深圳）", "港中深", "港中文深圳"])
  , ("港中深", ["香港中文大学（深圳）", "cuhksz"])
  , ("大数据", ["数据科学", "大数据分析"])
  , ("ai", ["人工智能", "artificial intelligence"])
  , ("cs", ["计算机科学", "computer science"])
  , ("mkt", ["市场营销", "marketing"])
  , ("申请", ["报名", "入学"])
  , ("学费", ["费用", "收费", "tuition"])
  , ("专业", ["学科", "项目", "课程", "program"])
  , ("招生", ["录取", "招收", "入学"])
  , ("要求", ["条件", "标准", "资格"])
  , ("就业", ["工作", "career", "就业前景"]) ]

/-- `QAExpansion._expand_abbreviations`: for each abbreviation whose
lowercase form occurs in the lowercased question, add every
case-insensitive substitution that differs from the original. -/
def expandAbbreviations (question : String) : List String :=
  abbreviationMap.foldl
    (fun acc p =>
      if containsStr (lowerStr question) (lowerStr p.1) then
        p.2.foldl
          (fun acc2 fullForm =>
            let expanded : String := ⟨replaceAllCI p.1.data fullForm.data question.data⟩
            if expanded ≠ question then acc2 ++ [expanded] else acc2)
          acc
      else acc)
    []

/-- Greedy match of the anchored pattern `(.+)有(什么|哪些)(.+)` from
`QUESTION_PATTERNS`: the leading group takes the longest split that still
lets the rest of the pattern match (Python backtracking). -/
def matchPatternHas (s : List Char) : Option (List Char × List Char × List Char) :=
  (List.range s.length).reverse.findSome? fun i =>
    if i = 0 then none
    else
      match s.drop i with
      | '有' :: r2 =>
        if hasPrefixL "什么".data r2 ∧ r2.drop 2 ≠ [] then
          some (s.take i, "什么".data, r2.drop 2)
        else if hasPrefixL "哪些".data r2 ∧ r2.drop 2 ≠ [] then
          some (s.take i, "哪些".data, r2.drop 2)
        else none
      | _ => none

/-- Greedy match of the anchored pattern `(.+)怎么(.+)`. -/
def matchPatternHow (s : List Char) : Option (List Char × List Char) :=
  (List.range s.length).reverse.findSome? fun i =>
    if i = 0 then none
    else
      if hasPrefixL "怎么".data (s.drop i) ∧ s.drop (i + 2) ≠ [] then
        some (s.take i, s.drop (i + 2))
      else none

/-- Greedy match of the anchored pattern `(.+)是什么` (a prefix match:
`re.match` does not require the pattern to reach the end of the string). -/
def matchPatternWhatIs (s : List Char) : Option (List Char) :=
  (List.range s.length).reverse.findSome? fun i =>
    if i = 0 then none
    else if hasPrefixL "是什么".data (s.drop i) then some (s.take i) else none

/-- Match of the anchored pattern `如何(.+)` (the trailing greedy group
takes the whole remainder). -/
def matchPatternHowTo (s : List Char) : Option (List Char) :=
  if hasPrefixL "如何".data s ∧ s.drop 2 ≠ [] then some (s.drop 2) else none

/-- Keep the template instantiations that differ from the question. -/
def keepChanged (question : String) (l : List String) : List String :=
  l.foldl (fun acc t => if t ≠ question then acc ++ [t] else acc) []

/-- `QAExpansion._expand_patterns`: apply the first matching question
pattern and instantiate its rewrite templates (capture-group
substitution); only the first matching pattern is used (`break`). -/
def expandPatterns (question : String) : List String :=
  let s := question.data
  match matchPatternHas s with
  | some (a, _, c) =>
    keepChanged question
      [⟨a⟩ ++ "开设" ++ ⟨c⟩, ⟨a⟩ ++ "提供" ++ ⟨c⟩, ⟨a⟩ ++ "的" ++ ⟨c⟩ ++ "是什么"]
  | none =>
    match matchPatternHow s with
    | some (a, b) =>
      keepChanged question
        [⟨a⟩ ++ "如何" ++ ⟨b⟩, ⟨a⟩ ++ ⟨b⟩ ++ "的方法", "如何" ++ ⟨b⟩ ++ ⟨a⟩]
    | none =>
      match matchPatternWhatIs s with
      | some a =>
        keepChanged question [⟨a⟩ ++ "的介绍", "什么是" ++ ⟨a⟩, ⟨a⟩ ++ "概况"]
      | none =>
        match matchPatternHowTo s with
        | some a =>
          keepChanged question ["怎么" ++ ⟨a⟩, ⟨a⟩ ++ "的方法", ⟨a⟩ ++ "流程"]
        | none => []

/-- Validity of a model of Python `list(set(...))`: the result is
duplicate-free and has exactly the elements of the input; the iteration
order of a Python `set` is otherwise unspecified. -/
def pySetValid (pyset : List String → List String) : Prop :=
  ∀ l : List String, (pyset l).Nodup ∧ ∀ x : String, x ∈ pyset l ↔ x ∈ l

/-- `QAExpansion.expand_question`: original question, abbreviation
rewrites, then pattern rewrites, passed through `list(set(...))`
(modelled by the explicit `pyset` parameter). -/
def expandQuestion (pyset : List String → List String) (question : String) : List String :=
  pyset ([question] ++ expandAbbreviations question ++ expandPatterns question)

/-- Stop-word set of `QAExpansion.extract_keywords`. -/
def stopWords : List String :=
  [ "的", "了", "是", "在", "有", "和", "与", "及", "或", "等"
  , "什么", "哪些", "如何", "怎么", "为什么", "吗", "呢", "吧"
  , "请问", "可以", "能", "会", "吗", "？", "?", "。", "." ]

/-- Character class of the tokenizer regex `[一-龥a-zA-Z0-9]`. -/
def isWordChar (c : Char) : Bool :=
  ('一' ≤ c && c ≤ '龥') || ('a' ≤ c && c ≤ 'z') ||
    ('A' ≤ c && c ≤ 'Z') || ('0' ≤ c && c ≤ '9')

/-- Tokenizer state machine: `none` scans for the start of a run of
word characters, `some run` extends the current (reversed) run. -/
def tokenizeAux : Option (List Char) → List Char → List String
  | none, [] => []
  | some run, [] => [⟨run.reverse⟩]
  | none, c :: cs => if isWordChar c then tokenizeAux (some [c]) cs else tokenizeAux none cs
  | some run, c :: cs =>
    if isWordChar c then tokenizeAux (some (c :: run)) cs
    else (⟨run.reverse⟩ : String) :: tokenizeAux none cs

/-- `re.findall(r'[一-龥a-zA-Z0-9]+', s)`: maximal runs of word
characters. -/
def tokenize (l : List Char) : List String := tokenizeAux none l

/-- `QAExpansion.extract_keywords`: tokenize, drop stop words and
single-character tokens, append the full forms of any keyword that is an
abbreviation-map key, deduplicate with `list(set(...))`. -/
def extractKeywords (pyset : List String → List String) (question : String) : List String :=
  let keywords := (tokenize question.data).filter
    (fun w => decide (w ∉ stopWords) && decide (2 ≤ w.data.length))
  let expandedKeywords := keywords.foldl
    (fun acc kw =>
      match abbreviationMap.find? (fun p => p.1 = lowerStr kw) with
      | some p => acc ++ p.2
      | none => acc)
    keywords
  pyset expandedKeywords

/-! ### Data model: candidate dictionaries and configuration

A retrieval result is a Python dict; each key that the core reads is an
`Option` field (`none` = key absent).  Keys that the code sets to `None`
are conflated with absent keys; the dict-membership tests the core
performs (`"date" in result`, …) are only applied to keys never set to
`None`, so the conflation is behaviour-preserving. -/

structure Citation where
  cid : Nat
  ctype : String
  label : String
  title : String
  source_name : String
  date : Option String
  snippet : String
  url : Option String
  internal_score : ℚ
  deriving DecidableEq, Repr

/-- The `_strategy_info` payload attached to a fusion winner. -/
structure StrategyInfo where
  tier : String
  confidence_level : String
  citations : List Citation
  explanation : String
  web_search_option : Bool
  custom_message : Option String
  deriving DecidableEq, Repr

/-- One retrieval candidate dictionary. -/
structure Result where
  source : Option String := none
  similarity : Option ℚ := none
  relevance : Option ℚ := none
  weighted_score : Option ℚ := none
  weighted_similarity : Option ℚ := none
  kb_weight : Option ℚ := none
  question : Option String := none
  answer : Option String := none
  text : Option String := none
  content : Option String := none
  raw_content : Option String := none
  title : Option String := none
  url : Option String := none
  kb_id : Option Nat := none
  kb_name : Option String := none
  category : Option String := none
  priority : Option ℚ := none
  rid : Option Nat := none
  date : Option String := none
  created_at : Option String := none
  updated_at : Option String := none
  timestamp : Option String := none
  match_type : Option String := none
  search_type : Option String := none
  error : Option String := none
  published_date : Option String := none
  strategy_info : Option StrategyInfo := none
  deriving DecidableEq, Repr

/-- Return shape of `AccuratePriorityStrategy.apply_strategy`. -/
structure StratResponse where
  tier : String
  final_result : Option Result
  confidence_level : String
  citations : List Citation
  explanation : String
  web_search_option : Bool
  custom_message : Option String
  deriving DecidableEq, Repr

/-- `fusion_config.strategy` sub-dictionary. -/
structure StrategyCfg where
  kb_high_confidence_threshold : Option ℚ := none
  kb_context_threshold : Option ℚ := none
  qa_direct_threshold : Option ℚ := none
  qa_suggest_threshold : Option ℚ := none
  kb_min_threshold : Option ℚ := none
  web_search_trigger_threshold : Option ℚ := none
  kb_absolute_priority_threshold : Option ℚ := none
  kb_priority_threshold : Option ℚ := none
  kb_priority_bonus : Option ℚ := none
  deriving DecidableEq, Repr

/-- `fusion_config.fixed_qa` sub-dictionary. -/
structure FixedQaCfg where
  mode : Option String := none
  direct_match_threshold : Option ℚ := none
  suggest_threshold : Option ℚ := none
  qa_min_threshold : Option ℚ := none
  max_suggestions : Option Nat := none
  deriving DecidableEq, Repr

/-- `fusion_config.vector_retrieval` sub-dictionary. -/
structure VectorRetrievalCfg where
  min_similarity_score : Option ℚ := none
  max_results : Option Nat := none
  deriving DecidableEq, Repr

/-- `fusion_config` dictionary (`none` = absent or empty, which the code
treats identically through `.get(..., {})` and truthiness tests). -/
structure FusionCfg where
  strategy : Option StrategyCfg := none
  fixed_qa : Option FixedQaCfg := none
  vector_retrieval : Option VectorRetrievalCfg := none
  deriving DecidableEq, Repr

/-- Application configuration (`app_config`). -/
structure AppConfig where
  enable_fixed_qa : Option Bool := none
  enable_vector_kb : Option Bool := none
  enable_web_search : Option Bool := none
  fixed_qa_weight : Option ℚ := none
  vector_kb_weight : Option ℚ := none
  web_search_weight : Option ℚ := none
  strategy_mode : Option String := none
  web_search_auto_threshold : Option ℚ := none
  fusion_strategy : Option String := none
  similarity_threshold_high : Option ℚ := none
  similarity_threshold_low : Option ℚ := none
  top_k : Option Nat := none
  custom_no_result_response : Option String := none
  fusion_config : Option FusionCfg := none
  deriving DecidableEq, Repr

/-- Per-knowledge-base configuration row. -/
structure KBConf where
  kb_id : Nat := 0
  name : String := ""
  collection_name : String := ""
  weight : Option ℚ := none
  boost_factor : Option ℚ := none
  deriving DecidableEq, Repr

/-- A fixed Q&A pair as stored (`fixed_qa_pairs` entries). -/
structure QaPair where
  qid : Nat := 0
  question : String := ""
  answer : String := ""
  category : Option String := none
  embedding_vector : Option (List ℚ) := none
  is_active : Option Bool := none
  priority : Option ℚ := none
  deriving DecidableEq, Repr

/-- Python exception outcomes that the embedded code can raise. -/
inductive PyErr where
  | attributeError
  deriving DecidableEq, Repr

/-- `result.get("similarity", 0)`. -/
def simOf (r : Result) : ℚ := r.similarity.getD 0

/-- `result.get("relevance", result.get("similarity", 0))`. -/
def relOrSim (r : Result) : ℚ := r.relevance.getD (simOf r)

/-- The source strings the engine treats as web results. -/
def webSources : List String := ["web", "tavily_answer", "tavily_web"]

/-- `result.get("source")` compared against a source tag. -/
def srcOf (r : Result) : String := r.source.getD ""

/-- `app_config.get("fusion_config", {}).get("strategy", {})`. -/
def strategyCfgOf (cfg : AppConfig) : StrategyCfg :=
  match cfg.fusion_config with
  | some fc => fc.strategy.getD {}
  | none => {}

/-- `fusion_config.get("fixed_qa", {})`. -/
def fixedQaCfgOf (cfg : AppConfig) : FixedQaCfg :=
  match cfg.fusion_config with
  | some fc => fc.fixed_qa.getD {}
  | none => {}

/-- `fusion_config.get("vector_retrieval", {})`. -/
def vectorRetrievalCfgOf (cfg : AppConfig) : VectorRetrievalCfg :=
  match cfg.fusion_config with
  | some fc => fc.vector_retrieval.getD {}
  | none => {}

/-- Python `max(l, key=key)` evaluated for its key value only
(`0` if the list is empty; the empty case is never reached in the code). -/
def maxKeyVal (key : Result → ℚ) : List Result → ℚ
  | [] => 0
  | r :: rs => rs.foldl (fun m x => max m (key x)) (key r)

/-- Python `max(l, key=key)`: the first element attaining the maximal
key (later elements replace the champion only when strictly greater). -/
def maxByFirst (key : Result → ℚ) : List Result → Option Result
  | [] => none
  | r :: rs => some (rs.foldl (fun b x => if key b < key x then x else b) r)

/-- Insert step of a stable descending sort: the new element goes in
front of the first element that is not strictly greater, so elements
with equal keys keep their original relative order, as with Python
`sorted(..., reverse=True)`. -/
def insDescBy (gt : α → α → Bool) (x : α) : List α → List α
  | [] => [x]
  | y :: ys => if gt y x then y :: insDescBy gt x ys else x :: y :: ys

/-- Stable descending sort, modelling Python
`sorted(l, key=key, reverse=True)` for a strict comparison `gt`. -/
def sortDescBy (gt : α → α → Bool) : List α → List α
  | [] => []
  | x :: xs => insDescBy gt x (sortDescBy gt xs)

/-- Strict key comparison on `ℚ` keys. -/
def keyGt (key : α → ℚ) (a b : α) : Bool := decide (key b < key a)

/-! ### `accurate_priority_strategy.py` — AccuratePriorityStrategy -/

/-- Class attribute `DEFAULT_HIGH_CONFIDENCE_THRESHOLD`. -/
def DEFAULT_HIGH_CONFIDENCE_THRESHOLD : ℚ := 0.82

/-- Class attribute `DEFAULT_MEDIUM_CONFIDENCE_THRESHOLD`. -/
def DEFAULT_MEDIUM_CONFIDENCE_THRESHOLD : ℚ := 0.70

/-- Class attribute `WEB_CONSENSUS_THRESHOLD`. -/
def WEB_CONSENSUS_THRESHOLD : ℚ := 0.88

/-- Class attribute `WEB_ADVANTAGE_THRESHOLD`. -/
def WEB_ADVANTAGE_THRESHOLD : ℚ := 0.15

/-- The numeric class attributes of `AccuratePriorityStrategy`, as a
name-indexed table: `self.<name>` is an `AttributeError` for any name
not listed here. -/
def strategyClassAttrs : List (String × ℚ) :=
  [ ("DEFAULT_HIGH_CONFIDENCE_THRESHOLD", DEFAULT_HIGH_CONFIDENCE_THRESHOLD)
  , ("DEFAULT_MEDIUM_CONFIDENCE_THRESHOLD", DEFAULT_MEDIUM_CONFIDENCE_THRESHOLD)
  , ("WEB_CONSENSUS_THRESHOLD", WEB_CONSENSUS_THRESHOLD)
  , ("WEB_ADVANTAGE_THRESHOLD", WEB_ADVANTAGE_THRESHOLD) ]

/-- Python attribute lookup on the strategy class. -/
def classAttr (name : String) : Option ℚ :=
  (strategyClassAttrs.find? (fun p => p.1 = name)).map Prod.snd

/-- `_truncate_text`. -/
def truncateText (text : String) (maxLength : Nat) : String :=
  if text = "" then ""
  else if strLen text ≤ maxLength then text
  else takeStr text maxLength ++ "..."

/-- `_extract_title_from_text`: first sentence (split at `。`) when it is
non-empty, shortened to `maxLength`; otherwise plain truncation. -/
def extractTitleFromText (text : String) (maxLength : Nat) : String :=
  if text = "" then "文档"
  else
    let firstRaw : List Char := text.data.takeWhile (fun c => c ≠ '。')
    if firstRaw ≠ [] then
      let firstSentence := stripStr ⟨firstRaw⟩
      if strLen firstSentence ≤ maxLength then firstSentence
      else takeStr firstSentence maxLength ++ "..."
    else truncateText text maxLength

/-- `_extract_domain`: netloc (or path) of the URL with a leading
`www.` removed; models `urllib.parse.urlparse` for the
`scheme://host/...` and bare-path URL shapes the engine handles. -/
def extractDomain (url : String) : String :=
  if url = "" then "未知来源"
  else
    let domain : List Char :=
      match splitFirstAt "://".data url.data with
      | some (_, rest) => rest.takeWhile (fun c => c ≠ '/' ∧ c ≠ '?' ∧ c ≠ '#')
      | none => url.data
    if hasPrefixL "www.".data domain then ⟨domain.drop 4⟩ else (⟨domain⟩ : String)

/-- `_extract_date`: the stored `date` field, else the first of
`created_at` / `updated_at` / `timestamp` with at least ten characters
(shortened to `YYYY-MM-DD`), else today (`datetime.now()`, passed in
explicitly as `now`). -/
def extractDate (now : String) (r : Result) : String :=
  match r.date with
  | some d => d
  | none =>
    match [r.created_at, r.updated_at, r.timestamp].findSome?
      (fun f => f.bind (fun s => if 10 ≤ strLen s then some (takeStr s 10) else none)) with
    | some d => d
    | none => now

/-- One citation of `_generate_numbered_citations`, by source type. -/
def mkNumberedCitation (now : String) (idx : Nat) (r : Result) : Citation :=
  if srcOf r = "kb" then
    { cid := idx, ctype := "kb", label := "KB"
    , title := extractTitleFromText (r.text.getD "") 30
    , source_name := r.kb_name.getD "知识库"
    , date := some (extractDate now r)
    , snippet := r.text.getD ""
    , url := r.url
    , internal_score := simOf r }
  else if srcOf r = "fixed_qa" then
    { cid := idx, ctype := "qa", label := "KB"
    , title := truncateText (r.question.getD "") 30
    , source_name := "固定Q&A"
    , date := some (extractDate now r)
    , snippet := r.answer.getD ""
    , url := none
    , internal_score := simOf r }
  else if srcOf r = "tavily_answer" then
    { cid := idx, ctype := "web", label := "Web"
    , title := "AI综合答案"
    , source_name := "网络搜索"
    , date := some (extractDate now r)
    , snippet := r.answer.getD (r.content.getD "")
    , url := none
    , internal_score := relOrSim r }
  else
    { cid := idx, ctype := "web", label := "Web"
    , title := truncateText (r.title.getD "网页") 40
    , source_name := extractDomain (r.url.getD "")
    , date := some (extractDate now r)
    , snippet := r.content.getD ""
    , url := some (r.url.getD "")
    , internal_score := relOrSim r }

/-- Citation list with 1-based ids, recursion on the result list. -/
def genNumberedFrom (now : String) (idx : Nat) : List Result → List Citation
  | [] => []
  | r :: rs => mkNumberedCitation now idx r :: genNumberedFrom now (idx + 1) rs

/-- `_generate_numbered_citations`: at most three citations, ids 1-based. -/
def generateNumberedCitations (now : String) (results : List Result) : List Citation :=
  genNumberedFrom now 1 (results.take 3)

/-- `"".join(f"[{c['id']}]" for ...)` over the citation ids. -/
def citationIdsLabel (citations : List Citation) : String :=
  citations.foldl (fun acc c => acc ++ "[" ++ toString c.cid ++ "]") ""

/-- `_generate_explanation`. -/
def generateExplanation (citations : List Citation) (confidenceType : String) : String :=
  if citations = [] then "未找到相关引用来源。"
  else
    let citationStr := citationIdsLabel citations
    if confidenceType = "strong" then
      "依据" ++ citationStr ++ "的高质量匹配内容得出结论，信息来源可靠且一致。"
    else if confidenceType = "moderate" then
      "依据" ++ citationStr ++ "的部分证据作答，仅陈述可以确认的信息，其他部分因证据不足未下结论。"
    else "知识库中缺少充分证据，无法给出可靠结论。"

/-- The `| 主要来源: ... | 链接: ...` suffix appended to the web-based
explanations, built from the first citation (Python truthiness: `None`
and the empty string both suppress the link). -/
def webExplanationSuffix (citations : List Citation) : String :=
  match citations with
  | [] => ""
  | c :: _ =>
    let sourceName := c.source_name
    match c.url with
    | some u =>
      if u ≠ "" then " | 主要来源: " ++ sourceName ++ " | 链接: " ++ u
      else if sourceName ≠ "" then " | 主要来源: " ++ sourceName
      else ""
    | none => if sourceName ≠ "" then " | 主要来源: " ++ sourceName else ""

/-- `_create_a_tier_response`. -/
def createATierResponse (now : String) (bestResult : Option Result)
    (allResults : List Result) : StratResponse :=
  let citations := generateNumberedCitations now (allResults.take 3)
  { tier := "A", final_result := bestResult, confidence_level := "高"
  , citations := citations
  , explanation := generateExplanation citations "strong"
  , web_search_option := false, custom_message := none }

/-- `_create_b_tier_response`. -/
def createBTierResponse (now : String) (bestResult : Option Result)
    (allResults : List Result) : StratResponse :=
  let citations := generateNumberedCitations now (allResults.take 3)
  { tier := "B", final_result := bestResult, confidence_level := "中"
  , citations := citations
  , explanation := generateExplanation citations "moderate"
  , web_search_option := true
  , custom_message := some "⚠️ 现有资料不够充分，部分信息可能需要进一步核验。" }

/-- `_create_b_tier_response_with_web` (the `kb_result`, `kb_results`
and `reason` parameters of the Python method are unused in its body and
omitted here). -/
def createBTierWebResponse (now : String) (webResults : List Result) : StratResponse :=
  let citations := generateNumberedCitations now (webResults.take 3)
  let bestWeb := maxByFirst relOrSim webResults
  { tier := "B", final_result := bestWeb, confidence_level := "中"
  , citations := citations
  , explanation := "知识库信息不足，已从网络检索到相关内容" ++ webExplanationSuffix citations
  , web_search_option := false
  , custom_message := some "ℹ️ 以下信息来自网络搜索" }

/-- `_create_c_tier_response`. -/
def createCTierResponse (cfg : AppConfig) (defaultMessage : String) : StratResponse :=
  let customMsg := cfg.custom_no_result_response.getD defaultMessage
  { tier := "C", final_result := none, confidence_level := "低"
  , citations := []
  , explanation := "知识库中未找到足够充分的相关信息。"
  , web_search_option := true
  , custom_message := some (if customMsg = "" then
      "🙇 抱歉，我在知识库中未找到关于此问题的充分信息。\n\n您可以：\n- 尝试换个问法\n- 提供更多上下文信息\n- 联系管理员补充相关资料"
    else customMsg) }

/-- The tier-C response carrying the best web result (inlined in the
low-confidence branch of `apply_strategy`). -/
def cTierWebResponse (now : String) (bestWeb : Result) (webResults : List Result) :
    StratResponse :=
  let citations := generateNumberedCitations now (webResults.take 3)
  { tier := "C", final_result := some bestWeb, confidence_level := "中"
  , citations := citations
  , explanation := "知识库信息不足，已为您从网络检索到相关内容" ++ webExplanationSuffix citations
  , web_search_option := false
  , custom_message := some "ℹ️ 以下信息来自网络搜索" }

/-- Similarity values of a web-result list (`r.get("similarity", 0)`). -/
def simsOf (ws : List Result) : List ℚ := ws.map simOf

/-- Arithmetic mean (callers guarantee a non-empty list). -/
def meanQ (l : List ℚ) : ℚ := l.sum / l.length

/-- Population variance; `_calculate_std_dev` returns its square root. -/
def varQ (l : List ℚ) : ℚ := (l.map (fun x => (x - meanQ l) ^ 2)).sum / l.length

/-- Number of distinct domains among web results with a non-empty URL
(`_check_web_consensus` grouping step). -/
def consensusDomains (ws : List Result) : Nat :=
  ((ws.filterMap
      (fun r => if r.url.getD "" ≠ "" then some (extractDomain (r.url.getD "")) else none)).dedup).length

/-- Decision `consensus_score ≥ WEB_CONSENSUS_THRESHOLD` where
`consensus_score = mean · max(0, 1 − 2·√variance)` from
`_check_web_consensus` (zero when fewer than two results or fewer than
two distinct domains).  The square root is decided exactly through the
equivalent squared comparison; `consensusPasses_iff` below proves the
equivalence with the `Real.sqrt` formula. -/
def consensusScorePasses (ws : List Result) : Bool :=
  if ws.length < 2 then false
  else if consensusDomains ws < 2 then false
  else
    let a := meanQ (simsOf ws)
    let v := varQ (simsOf ws)
    decide (WEB_CONSENSUS_THRESHOLD ≤ a ∧
      4 * a ^ 2 * v ≤ (a - WEB_CONSENSUS_THRESHOLD) ^ 2)

/-- Recency/authority markers of `_check_timestamp_evidence`. -/
def timestampIndicators : List String :=
  [ "2024", "2025", "最新", "更新", "新版", "现在"
  , "latest", "update", "new", "current", "recent"
  , "官方", "公告", "通知", "official", "announcement", "notice" ]

/-- Authoritative-domain markers of `_check_timestamp_evidence`. -/
def authoritativeDomains : List String :=
  [".gov.", ".edu.", "news", "press", "blog", "official"]

/-- Evidence contributed by one web result: 3 for a Tavily AI answer
(then nothing else), 0.5 once if title+content contain a recency token,
plus 1 once if the URL contains an authoritative-domain marker. -/
def resultEvidence (r : Result) : ℚ :=
  if srcOf r = "tavily_answer" then 3
  else
    let combined := lowerStr (r.title.getD "") ++ " " ++ lowerStr (r.content.getD "")
    let indicatorPart : ℚ :=
      if timestampIndicators.any (fun ind => containsStr combined (lowerStr ind)) then 0.5 else 0
    let url := lowerStr (r.url.getD "")
    let domainPart : ℚ :=
      if authoritativeDomains.any (fun d => containsStr url d) then 1 else 0
    indicatorPart + domainPart

/-- Total evidence score accumulated over the result loop. -/
def evidenceScore (ws : List Result) : ℚ := (ws.map resultEvidence).sum

/-- `_check_timestamp_evidence` (the `kb_result` parameter of the Python
method is unused in its body and omitted): evidence score at least 2. -/
def checkTimestampEvidence (ws : List Result) : Bool := decide (2 ≤ evidenceScore ws)

/-- `_should_use_web_over_kb`: consensus, then advantage, then
timestamp evidence; the reason strings are logging-only and omitted.
The consensus check runs before the first attribute access on
`kb_result`, so a `None` knowledge-base result only raises once the
consensus threshold is met. -/
def shouldUseWebOverKb (kbResult : Option Result) (ws : List Result) : Except PyErr Bool :=
  if ¬ consensusScorePasses ws then .ok false
  else
    let webScore := maxKeyVal simOf ws
    match kbResult with
    | none => .error .attributeError
    | some k =>
      if webScore - simOf k < WEB_ADVANTAGE_THRESHOLD then .ok false
      else .ok (checkTimestampEvidence ws)

/-- `results` filtered to knowledge-base candidates. -/
def kbResultsOf (results : List Result) : List Result :=
  results.filter (fun r => srcOf r = "kb")

/-- `results` filtered to fixed-Q&A candidates. -/
def fixedQaResultsOf (results : List Result) : List Result :=
  results.filter (fun r => srcOf r = "fixed_qa")

/-- `results` filtered to web candidates. -/
def webResultsOf (results : List Result) : List Result :=
  results.filter (fun r => decide (srcOf r ∈ webSources))

/-- `strategy_config.get("kb_high_confidence_threshold", DEFAULT_…)`. -/
def highThresholdOf (cfg : AppConfig) : ℚ :=
  (strategyCfgOf cfg).kb_high_confidence_threshold.getD DEFAULT_HIGH_CONFIDENCE_THRESHOLD

/-- `strategy_config.get("kb_context_threshold", DEFAULT_…)`. -/
def mediumThresholdOf (cfg : AppConfig) : ℚ :=
  (strategyCfgOf cfg).kb_context_threshold.getD DEFAULT_MEDIUM_CONFIDENCE_THRESHOLD

/-- `strategy_config.get("qa_direct_threshold", 0.90)` as read by
`apply_strategy`. -/
def qaDirectThresholdOf (cfg : AppConfig) : ℚ :=
  (strategyCfgOf cfg).qa_direct_threshold.getD 0.90

/-- `AccuratePriorityStrategy.apply_strategy`.  The low-confidence
branch starts with a log line reading `self.MEDIUM_CONFIDENCE_THRESHOLD`,
an attribute the class does not define (`classAttr` lookup), so every
non-empty candidate list that reaches tier C raises `AttributeError`
before producing a response. -/
def applyStrategy (now : String) (results : List Result) (cfg : AppConfig) :
    Except PyErr StratResponse :=
  if results = [] then .ok (createCTierResponse cfg "未找到任何相关信息")
  else
    let highThreshold := highThresholdOf cfg
    let mediumThreshold := mediumThresholdOf cfg
    let kbResults := kbResultsOf results
    let webResults := webResultsOf results
    let bestKb := maxByFirst simOf kbResults
    let bestFixedQa := maxByFirst simOf (fixedQaResultsOf results)
    let qaHighThreshold := qaDirectThresholdOf cfg
    match bestFixedQa.filter (fun bq => decide (qaHighThreshold ≤ simOf bq)) with
    | some bq => .ok (createATierResponse now (some bq) [bq])
    | none =>
      let kbSimilarity := (bestKb.map simOf).getD 0
      if highThreshold ≤ kbSimilarity then
        .ok (createATierResponse now bestKb (kbResults.take 3))
      else if mediumThreshold ≤ kbSimilarity then
        match webResults with
        | [] => .ok (createBTierResponse now bestKb (kbResults.take 3))
        | _ :: _ =>
          match shouldUseWebOverKb bestKb webResults with
          | .error e => .error e
          | .ok true => .ok (createBTierWebResponse now webResults)
          | .ok false => .ok (createBTierResponse now bestKb (kbResults.take 3))
      else
        match classAttr "MEDIUM_CONFIDENCE_THRESHOLD" with
        | none => .error .attributeError
        | some _ =>
          let cWeb : Option StratResponse :=
            match maxByFirst relOrSim webResults with
            | some bw =>
              if 0.60 ≤ relOrSim bw then some (cTierWebResponse now bw webResults) else none
            | none => none
          match cWeb with
          | some resp => .ok resp
          | none =>
            let customMessage := cfg.custom_no_result_response.getD ""
            .ok (createCTierResponse cfg
              (if customMessage = "" then "未找到足够证据" else customMessage))

/-! ### `tavily_search.py` — TavilySearch result normalisation -/

/-- One raw entry of a Tavily API response. -/
structure TavilyRaw where
  content : Option String := none
  title : Option String := none
  url : Option String := none
  score : Option ℚ := none
  raw_content : Option String := none
  published_date : Option String := none
  deriving DecidableEq, Repr

/-- The dictionary `TavilySearch.search` returns: failures inside the
client (HTTP errors, timeouts, exceptions) are caught there and come
back as `success = False` with an empty result list. -/
structure TavilyResponse where
  success : Bool := false
  answer : String := ""
  results : List TavilyRaw := []
  deriving DecidableEq, Repr

/-- `TavilySearch.format_results_for_rag` with the default relevance
threshold 0.5: nothing on failure; otherwise an optional AI-answer entry
at relevance 0.90 followed by the raw results with `score ≥ 0.5`. -/
def formatResultsForRag (resp : TavilyResponse) : List Result :=
  if ¬ resp.success then []
  else
    let answerEntries : List Result :=
      if resp.answer ≠ "" then
        [{ content := some resp.answer, source := some "tavily_answer"
         , title := some "AI综合答案", url := some "", relevance := some 0.90
         , answer := some resp.answer }]
      else []
    answerEntries ++ resp.results.foldl
      (fun acc raw =>
        let score := raw.score.getD 0.5
        if score < 0.5 then acc
        else
          acc ++ [{ content := some (raw.content.getD ""), source := some "tavily_web"
                  , title := some (raw.title.getD ""), url := some (raw.url.getD "")
                  , relevance := some score
                  , raw_content := some (if raw.raw_content.getD "" ≠ ""
                      then raw.raw_content.getD "" else raw.content.getD "")
                  , published_date := some (raw.published_date.getD "") }])
      []

/-! ### `hybrid_retrieval_engine.py` — HybridRetrievalEngine -/

/-- The error candidate `_search_with_tavily` builds in its `except`
handler. -/
def tavilyErrorResult (msg : String) : Result :=
  { source := some "tavily_error", error := some msg
  , content := some ("Tavily搜索失败: " ++ msg), title := some "搜索失败"
  , url := some "", relevance := some 0, similarity := some 0 }

/-- The error candidate `_search_web` builds in its `except` handler. -/
def searchErrorResult (msg : String) : Result :=
  { source := some "search_error", error := some msg
  , content := some ("联网搜索失败: " ++ msg) }

/-- Outcome of the web-search call stack: `success` is a completed
Tavily round-trip (including provider-level failures, which the client
converts into `success = False`), `tavilyRaised` an exception escaping
`_search_with_tavily` (e.g. the usage-counter commit), `outerRaised` an
exception escaping `_search_web` (e.g. the provider lookup), and
`noChannel` a configuration without search channels or providers. -/
inductive WebFetch where
  | success (resp : TavilyResponse)
  | tavilyRaised (msg : String)
  | outerRaised (msg : String)
  | noChannel
  deriving DecidableEq, Repr

/-- `_search_web` (and `_search_with_tavily` inside it): the candidate
list the web retriever hands back for each call-stack outcome. -/
def searchWeb : WebFetch → List Result
  | .success resp => formatResultsForRag resp
  | .tavilyRaised msg => [tavilyErrorResult msg]
  | .outerRaised msg => [searchErrorResult msg]
  | .noChannel => []

/-- The fixed-Q&A merge loop of `retrieve` (lines 75-78): tag the
source and set `weighted_score = similarity × fixed_qa_weight`. -/
def mergeFixedQa (cfg : AppConfig) (qaResults : List Result) : List Result :=
  qaResults.map (fun r =>
    { r with source := some "fixed_qa"
           , weighted_score := some (r.similarity.getD 0 * cfg.fixed_qa_weight.getD 1) })

/-- The knowledge-base merge loop of `retrieve` (lines 98-101): tag the
source and set `weighted_score = similarity × vector_kb_weight`. -/
def mergeKbResults (cfg : AppConfig) (kbResults : List Result) : List Result :=
  kbResults.map (fun r =>
    { r with source := some "kb"
           , weighted_score := some (r.similarity.getD 0 * cfg.vector_kb_weight.getD 1) })

/-- The web merge loop of `retrieve` (lines 162-175): keep an existing
source tag (else `web`), mark the search type, default a missing
similarity to the relevance or 0.5, and set
`weighted_score = similarity × web_search_weight`. -/
def mergeWebResults (cfg : AppConfig) (webResults : List Result) : List Result :=
  webResults.map (fun r =>
    let r1 := if r.source.isNone then { r with source := some "web" } else r
    let r2 := { r1 with search_type := some "web" }
    let r3 :=
      if r2.similarity.isNone then
        match r2.relevance with
        | some v => { r2 with similarity := some v }
        | none => { r2 with similarity := some 0.5 }
      else r2
    { r3 with weighted_score := some (r3.similarity.getD 0 * cfg.web_search_weight.getD 0.6) })

/-- `max(result.get("similarity", 0) for result in all_results)` with
0.0 for an empty list (lines 120-122). -/
def maxConfidenceOf : List Result → ℚ
  | [] => 0
  | r :: rs => rs.foldl (fun m x => max m (simOf x)) (simOf r)

/-- The web-search trigger threshold (lines 107-109): the strategy
value only applies when both `fusion_config` and its `strategy` entry
are truthy, else 0.70. -/
def webTriggerThresholdOf (cfg : AppConfig) : ℚ :=
  match cfg.fusion_config with
  | some fc =>
    match fc.strategy with
    | some st => st.web_search_trigger_threshold.getD 0.70
    | none => 0.70
  | none => 0.70

/-- The web-search trigger decision of `retrieve` (lines 103-146):
threshold 0 forces a search; otherwise the strategy mode — defaulting
to `safe_priority` when unset — decides: `safe_priority` never
auto-triggers, `realtime_knowledge` compares the best prior score with
`web_search_auto_threshold` (default 0.50), and any other mode falls
back to the legacy comparison with the trigger threshold. -/
def shouldTriggerWebSearch (cfg : AppConfig) (allResults : List Result) : Bool :=
  if ¬ cfg.enable_web_search.getD false then false
  else
    let triggerThreshold := webTriggerThresholdOf cfg
    let strategyMode := cfg.strategy_mode.getD "safe_priority"
    if triggerThreshold = 0 then true
    else
      let maxConfidence := maxConfidenceOf allResults
      if strategyMode = "safe_priority" then false
      else if strategyMode = "realtime_knowledge" then
        decide (maxConfidence < cfg.web_search_auto_threshold.getD 0.50)
      else decide (maxConfidence < triggerThreshold)

/-- `kb_min_threshold` as resolved by `_search_knowledge_bases`
(strategy override, else `min_similarity_score`, else
`similarity_threshold_low`, else 0.75). -/
def kbMinThresholdOf (cfg : AppConfig) : ℚ :=
  let minSimilarityScore := (vectorRetrievalCfgOf cfg).min_similarity_score.getD
    (cfg.similarity_threshold_low.getD 0.75)
  (strategyCfgOf cfg).kb_min_threshold.getD minSimilarityScore

/-- `max_results` as resolved by `_search_knowledge_bases`. -/
def kbMaxResultsOf (cfg : AppConfig) : Nat :=
  (vectorRetrievalCfgOf cfg).max_results.getD (cfg.top_k.getD 5)

/-- The candidate `_search_knowledge_bases` builds for one returned
document `(text, distance)`: similarity `1/(1+distance)`, weighted
similarity `similarity × weight × boost_factor`. -/
def kbDocResult (kb : KBConf) (doc : String × ℚ) : Result :=
  let similarity := 1 / (1 + doc.2)
  { kb_id := some kb.kb_id, kb_name := some kb.name, text := some doc.1
  , similarity := some similarity
  , weighted_similarity := some (similarity * kb.weight.getD 1 * kb.boost_factor.getD 1)
  , kb_weight := some (kb.weight.getD 1)
  , answer := some doc.1 }

/-- `_search_knowledge_bases`, with the vector index abstracted as
`fetch : collection_name ↦ (document, distance) list`: per base, keep
documents whose similarity meets `kb_min_threshold`; merge, sort by
weighted similarity (descending, stable) and truncate to
`max_results`. -/
def searchKnowledgeBases (fetch : String → List (String × ℚ)) (kbs : List KBConf)
    (cfg : AppConfig) : List Result :=
  let kbMinThreshold := kbMinThresholdOf cfg
  let allResults := kbs.foldl
    (fun acc kb =>
      (fetch kb.collection_name).foldl
        (fun acc2 doc =>
          if kbMinThreshold ≤ 1 / (1 + doc.2) then acc2 ++ [kbDocResult kb doc] else acc2)
        acc)
    []
  (sortDescBy (keyGt (fun r => r.weighted_similarity.getD 0)) allResults).take
    (kbMaxResultsOf cfg)

/-- The match candidate `_search_fixed_qa` builds from a pair (the
debug-only `_raw_similarity` and `_keyword_boost` keys are omitted). -/
def qaMatchResult (qa : QaPair) (finalSimilarity : ℚ) : Result :=
  { rid := some qa.qid, question := some qa.question, answer := some qa.answer
  , category := qa.category, similarity := some finalSimilarity
  , priority := some (qa.priority.getD 0) }

/-- Configured fixed-Q&A thresholds (`fusion_config.fixed_qa`). -/
def qaModeOf (cfg : AppConfig) : String := (fixedQaCfgOf cfg).mode.getD "smart"

/-- `direct_match_threshold` default 0.90. -/
def qaDirectMatchThresholdOf (cfg : AppConfig) : ℚ :=
  (fixedQaCfgOf cfg).direct_match_threshold.getD 0.90

/-- `suggest_threshold` default 0.70. -/
def qaSuggestThresholdOf (cfg : AppConfig) : ℚ :=
  (fixedQaCfgOf cfg).suggest_threshold.getD 0.70

/-- `qa_min_threshold` default 0.50. -/
def qaMinThresholdOf (cfg : AppConfig) : ℚ :=
  (fixedQaCfgOf cfg).qa_min_threshold.getD 0.50

/-- `max_suggestions` default 3. -/
def qaMaxSuggestionsOf (cfg : AppConfig) : Nat :=
  (fixedQaCfgOf cfg).max_suggestions.getD 3

/-- The scoring step of `_search_fixed_qa` for one pair: best similarity
over all expanded-query vectors (accumulated from the initial value
0.0), plus 0.05 per literally matching keyword capped at 0.15, clamped
to 1.0. -/
def qaFinalScore (sim : List ℚ → List ℚ → ℚ) (queryVectors : List (List ℚ))
    (keywords : List String) (qa : QaPair) (vec : List ℚ) : ℚ :=
  let maxSimilarity := queryVectors.foldl (fun m qv => max m (sim qv vec)) 0
  let matchingKeywords :=
    (keywords.filter (fun kw => containsStr (lowerStr qa.question) (lowerStr kw))).length
  let keywordBoost : ℚ :=
    if 0 < matchingKeywords then min (0.05 * matchingKeywords) 0.15 else 0
  min (maxSimilarity + keywordBoost) 1

/-- Keyword bonus alone (for stating the score decomposition). -/
def qaKeywordBoost (keywords : List String) (qa : QaPair) : ℚ :=
  let matchingKeywords :=
    (keywords.filter (fun kw => containsStr (lowerStr qa.question) (lowerStr kw))).length
  if 0 < matchingKeywords then min (0.05 * matchingKeywords) 0.15 else 0

/-- The query vectors of `_search_fixed_qa`: one embedding of the
original question when expansion found nothing new, otherwise one
embedding per expanded query. -/
def qaQueryVectors (pyset : List String → List String) (embed : String → List ℚ)
    (query : String) : List (List ℚ) :=
  let expandedQueries := expandQuestion pyset query
  if expandedQueries.length = 1 then [embed query] else expandedQueries.map embed

/-- The scored-match accumulation loop of `_search_fixed_qa`: pairs with
a non-empty stored embedding and active flag are scored with
`qaFinalScore`; those at or above `qa_min_threshold` are kept. -/
def qaAllMatches (sim : List ℚ → List ℚ → ℚ) (queryVectors : List (List ℚ))
    (keywords : List String) (qaMinThreshold : ℚ) (pairs : List QaPair) : List Result :=
  pairs.foldl
    (fun acc qa =>
      match qa.embedding_vector with
      | some vec =>
        if vec ≠ [] ∧ qa.is_active.getD true then
          let finalSimilarity := qaFinalScore sim queryVectors keywords qa vec
          if qaMinThreshold ≤ finalSimilarity then
            acc ++ [qaMatchResult qa finalSimilarity]
          else acc
        else acc
      | none => acc)
    []

/-- The `(similarity, priority)` descending comparison of the
`all_matches.sort(..., reverse=True)` call. -/
def qaSortGt (a b : Result) : Bool :=
  decide (simOf b < simOf a ∨ (simOf b = simOf a ∧ b.priority.getD 0 < a.priority.getD 0))

/-- Smart-mode selection: direct matches pass through, suggestions are
collected until `max_suggestions` is reached. -/
def qaSmartSelect (directThreshold suggestThreshold : ℚ) (maxSuggestions : Nat)
    (sortedMatches : List Result) : List Result :=
  (sortedMatches.foldl
    (fun (st : List Result × Bool) m =>
      if st.2 then st
      else if directThreshold ≤ simOf m then
        (st.1 ++ [{ m with match_type := some "direct" }], false)
      else if suggestThreshold ≤ simOf m then
        let newList := st.1 ++ [{ m with match_type := some "suggest" }]
        (newList,
          decide (maxSuggestions ≤ (newList.filter
            (fun r => r.match_type.getD "" = "suggest")).length))
      else (st.1, false))
    ([], false)).1

/-- Suggest-mode selection: the first `max_suggestions` sorted matches
that clear the suggest threshold. -/
def qaSuggestSelect (suggestThreshold : ℚ) (maxSuggestions : Nat)
    (sortedMatches : List Result) : List Result :=
  (sortedMatches.take maxSuggestions).foldl
    (fun acc m =>
      if suggestThreshold ≤ simOf m then acc ++ [{ m with match_type := some "suggest" }]
      else acc)
    []

/-- Strict-mode selection: scan until one direct match is found. -/
def qaStrictSelect (directThreshold : ℚ) (sortedMatches : List Result) : List Result :=
  (sortedMatches.foldl
    (fun (st : List Result × Bool) m =>
      if st.2 then st
      else
        let st1 := if directThreshold ≤ simOf m then
            (st.1 ++ [{ m with match_type := some "direct" }], st.2)
          else st
        (st1.1, decide (1 ≤ st1.1.length)))
    ([], false)).1

/-- `_search_fixed_qa`, with the embedding provider abstracted as
`embed` and the cosine similarity of `EmbeddingEngine.compute_similarity`
abstracted as `sim` (float cosine values are rationals; the exact
real-valued utility is `computeSimilarity` below).  Pairs without a
non-empty stored embedding or inactive pairs are skipped; scored pairs
below `qa_min_threshold` are dropped; survivors are sorted by
(similarity, priority) descending and classified by mode. -/
def searchFixedQa (pyset : List String → List String) (embed : String → List ℚ)
    (sim : List ℚ → List ℚ → ℚ) (query : String) (pairs : List QaPair)
    (cfg : AppConfig) (embedCfgPresent : Bool) : List Result :=
  if pairs = [] ∨ ¬ embedCfgPresent then []
  else
    let mode := qaModeOf cfg
    let directThreshold := qaDirectMatchThresholdOf cfg
    let suggestThreshold := qaSuggestThresholdOf cfg
    let qaMinThreshold := qaMinThresholdOf cfg
    let maxSuggestions := qaMaxSuggestionsOf cfg
    let queryVectors := qaQueryVectors pyset embed query
    let keywords := extractKeywords pyset query
    let sortedMatches := sortDescBy qaSortGt
      (qaAllMatches sim queryVectors keywords qaMinThreshold pairs)
    if mode = "smart" then qaSmartSelect directThreshold suggestThreshold maxSuggestions sortedMatches
    else if mode = "suggest" then qaSuggestSelect suggestThreshold maxSuggestions sortedMatches
    else if mode = "strict" then qaStrictSelect directThreshold sortedMatches
    else []

/-- `url.split("//")[-1].split("/")[0]` — the domain extraction used by
`_generate_unified_citations` (different from `_extract_domain`). -/
def unifiedDomain (url : String) : String :=
  if url = "" then "网页"
  else
    let afterScheme : List Char :=
      match splitFirstAt "//".data url.data with
      | some (_, rest) =>
        match splitFirstAt "//".data rest with
        | some (_, rest2) => rest2
        | none => rest
      | none => url.data
    ⟨afterScheme.takeWhile (fun c => c ≠ '/')⟩

/-- One citation of `_generate_unified_citations` (dates are `None`
here, unlike the numbered citations of the accurate-priority
strategy). -/
def mkUnifiedCitation (idx : Nat) (r : Result) : Citation :=
  if srcOf r = "kb" then
    let text := r.text.getD ""
    { cid := idx, ctype := "kb", label := "KB"
    , title := if 30 < strLen text then takeStr text 30 ++ "..." else text
    , source_name := r.kb_name.getD "知识库", date := none
    , snippet := text, url := r.url, internal_score := simOf r }
  else if srcOf r = "fixed_qa" then
    { cid := idx, ctype := "qa", label := "KB"
    , title := takeStr (r.question.getD "") 30
    , source_name := "固定Q&A", date := none
    , snippet := r.answer.getD "", url := none, internal_score := simOf r }
  else if srcOf r = "tavily_answer" then
    { cid := idx, ctype := "web", label := "Web"
    , title := "AI综合答案", source_name := "网络搜索", date := none
    , snippet := r.answer.getD (r.content.getD ""), url := none
    , internal_score := relOrSim r }
  else if srcOf r = "web" ∨ srcOf r = "tavily_web" then
    { cid := idx, ctype := "web", label := "Web"
    , title := takeStr (r.title.getD "网页") 40
    , source_name := unifiedDomain (r.url.getD ""), date := none
    , snippet := r.content.getD "", url := some (r.url.getD "")
    , internal_score := relOrSim r }
  else
    { cid := idx, ctype := "other", label := "来源"
    , title := "其他来源", source_name := srcOf r, date := none
    , snippet := r.text.getD (r.content.getD ""), url := none
    , internal_score := simOf r }

/-- Unified citations with 1-based ids. -/
def genUnifiedFrom (idx : Nat) : List Result → List Citation
  | [] => []
  | r :: rs => mkUnifiedCitation idx r :: genUnifiedFrom (idx + 1) rs

/-- `_generate_unified_citations` (no truncation here; the callers cap
the input at three). -/
def generateUnifiedCitations (results : List Result) : List Citation :=
  genUnifiedFrom 1 results

/-- Python truthiness of `r.get("text") or r.get("answer") or
r.get("content")`. -/
def hasContent (r : Result) : Bool :=
  r.text.getD "" ≠ "" ∨ r.answer.getD "" ≠ "" ∨ r.content.getD "" ≠ ""

/-- `_get_relevant_results_for_citations`: a web winner draws only web
candidates, sorted by relevance descending, at most three; otherwise the
winner first, then same-source then other non-web candidates with
similarity ≥ 0.6, capped at three and sorted by similarity descending.
Skipping the winner itself uses structural equality in place of Python
object identity. -/
def getRelevantResultsForCitations (finalResult : Result) (allResults : List Result) :
    List Result :=
  if decide (srcOf finalResult ∈ webSources) then
    (sortDescBy (keyGt relOrSim)
      (allResults.filter (fun r => decide (srcOf r ∈ webSources)))).take 3
  else
    let base : List Result :=
      if srcOf finalResult ≠ "no_result" ∧ hasContent finalResult then [finalResult] else []
    let eligible := allResults.filter (fun r =>
      decide (¬ (r = finalResult)) && decide (srcOf r ∉ webSources) &&
        decide ((0.6 : ℚ) ≤ simOf r) && hasContent r)
    let sameSource := eligible.filter (fun r => srcOf r = srcOf finalResult)
    let others := eligible.filter (fun r => srcOf r ≠ srcOf finalResult)
    (sortDescBy (keyGt simOf) ((base ++ sameSource ++ others).take 3)).take 3

/-- Decimal rendering of `similarity*100` with one digit after the
point, modelling the Python format `f"{x*100:.1f}%"` as a deterministic
function (the float rounding mode is abstracted to round-half-up). -/
def fmtPercentOne (x : ℚ) : String :=
  let n : ℤ := ⌊x * 1000 + 1 / 2⌋
  toString (n / 10) ++ "." ++ toString (n.natAbs % 10) ++ "%"

/-- `_generate_unified_strategy_info`: unified citations, tier and
confidence level from the winner similarity, source-typed explanation
(web winners show the first citation link instead of a percentage). -/
def generateUnifiedStrategyInfo (finalResult : Result) (allResults : List Result)
    (_cfg : AppConfig) : StrategyInfo :=
  let relevantResults := getRelevantResultsForCitations finalResult allResults
  let citations := generateUnifiedCitations relevantResults
  let similarity := simOf finalResult
  let tierPair : String × String :=
    if 0.85 ≤ similarity then ("high", "A")
    else if 0.70 ≤ similarity then ("moderate", "B")
    else ("low", "C")
  let sourceDisplay :=
    if srcOf finalResult = "fixed_qa" then "固定Q&A"
    else if srcOf finalResult = "kb" then "知识库"
    else if decide (srcOf finalResult ∈ webSources) then "联网搜索"
    else "知识源"
  let explanation :=
    if decide (srcOf finalResult ∈ webSources) then
      "基于" ++ sourceDisplay ++ "检索结果" ++ webExplanationSuffix citations
    else "基于" ++ sourceDisplay ++ "检索结果（相似度 " ++ fmtPercentOne similarity ++ "）"
  { tier := tierPair.2, confidence_level := tierPair.1
  , citations := citations, explanation := explanation
  , web_search_option := false, custom_message := none }

/-- Attach the unified strategy info to a fusion winner. -/
def attachUnified (finalResult : Result) (allResults : List Result) (cfg : AppConfig) :
    Result :=
  { finalResult with
    strategy_info := some (generateUnifiedStrategyInfo finalResult allResults cfg) }

/-- `_kb_priority_strategy`: fixed-Q&A ≥ 0.90 wins outright; best KB at
or above the absolute threshold wins; at or above the priority
threshold the web must beat KB by more than the bonus; otherwise open
competition by weighted score. -/
def kbPriorityStrategy (results : List Result) (cfg : AppConfig) : Option Result :=
  if results = [] then none
  else
    let strategyCfg := strategyCfgOf cfg
    let kbAbsolutePriorityThreshold := strategyCfg.kb_absolute_priority_threshold.getD 0.85
    let kbPriorityThreshold := strategyCfg.kb_priority_threshold.getD 0.70
    let kbPriorityBonus := strategyCfg.kb_priority_bonus.getD 0.15
    let bestFixedQa := maxByFirst simOf (fixedQaResultsOf results)
    let bestKb := maxByFirst simOf (kbResultsOf results)
    let bestWeb := maxByFirst simOf (webResultsOf results)
    match bestFixedQa.filter (fun bq => decide ((0.90 : ℚ) ≤ simOf bq)) with
    | some bq => some bq
    | none =>
      match bestKb.filter (fun bk => decide (kbAbsolutePriorityThreshold ≤ simOf bk)) with
      | some bk => some bk
      | none =>
        match bestKb.filter (fun bk => decide (kbPriorityThreshold ≤ simOf bk)) with
        | some bk =>
          match bestWeb with
          | some bw =>
            if simOf bk + kbPriorityBonus < simOf bw then some bw else some bk
          | none => some bk
        | none =>
          (sortDescBy (keyGt (fun r => r.weighted_score.getD 0)) results).head?

/-- Accumulator step of the voting strategy: insertion-ordered answer
groups with summed weighted scores and the first representative. -/
def voteInsert (ans : String) (weight : ℚ) (r : Result) :
    List (String × ℚ × Result) → List (String × ℚ × Result)
  | [] => [(ans, weight, r)]
  | (a, w, x) :: rest =>
    if a = ans then (a, w + weight, x) :: rest
    else (a, w, x) :: voteInsert ans weight r rest

/-- The vote table of the voting strategy. -/
def voteTable (results : List Result) : List (String × ℚ × Result) :=
  results.foldl
    (fun acc r => voteInsert (r.answer.getD "") (r.weighted_score.getD 0) r acc) []

/-- Python `max(answer_votes, key=answer_votes.get)` over the
insertion-ordered table: first group with the maximal vote. -/
def voteWinner : List (String × ℚ × Result) → Option Result
  | [] => none
  | (_, w, r) :: rest =>
    some ((rest.foldl (fun (b : ℚ × Result) x =>
      if b.1 < x.2.1 then (x.2.1, x.2.2) else b) (w, r)).2)

/-- `_apply_fusion_strategy`: dispatch on `fusion_strategy` (default
`weighted_avg`).  The accurate-priority branch can propagate the
`AttributeError` of `apply_strategy`; every other branch is pure. -/
def applyFusionStrategy (now : String) (results : List Result) (cfg : AppConfig) :
    Except PyErr (Option Result) :=
  if results = [] then .ok none
  else
    let fusionStrategy := cfg.fusion_strategy.getD "weighted_avg"
    let thresholdHigh := cfg.similarity_threshold_high.getD 0.90
    let thresholdLow := cfg.similarity_threshold_low.getD 0.75
    if fusionStrategy = "accurate_priority" then
      match applyStrategy now results cfg with
      | .error e => .error e
      | .ok strategyResult =>
        let info : StrategyInfo :=
          { tier := strategyResult.tier
          , confidence_level := strategyResult.confidence_level
          , citations := strategyResult.citations
          , explanation := strategyResult.explanation
          , web_search_option := strategyResult.web_search_option
          , custom_message := strategyResult.custom_message }
        match strategyResult.final_result with
        | some fin => .ok (some { fin with strategy_info := some info })
        | none => .ok (some
            { source := some "no_result", answer := none, similarity := some 0
            , weighted_score := some 0, strategy_info := some info })
    else if fusionStrategy = "kb_priority" then
      .ok ((kbPriorityStrategy results cfg).map (fun fin => attachUnified fin results cfg))
    else if fusionStrategy = "priority" then
      match ["fixed_qa", "kb", "web"].findSome?
        (fun st => results.find? (fun r => srcOf r = st && decide (thresholdHigh ≤ simOf r))) with
      | some r => .ok (some (attachUnified r results cfg))
      | none => .ok (results.head?.map (fun fin => attachUnified fin results cfg))
    else if fusionStrategy = "weighted_avg" then
      .ok (((sortDescBy (keyGt (fun r => r.weighted_score.getD 0)) results).head?).map
        (fun fin => attachUnified fin results cfg))
    else if fusionStrategy = "max_score" then
      .ok (((sortDescBy (keyGt simOf) results).head?).map
        (fun fin => attachUnified fin results cfg))
    else if fusionStrategy = "voting" then
      .ok ((voteWinner (voteTable results)).map (fun fin => attachUnified fin results cfg))
    else if fusionStrategy = "multi_source_fusion" then
      let highQualityResults := results.filter (fun r => decide (thresholdLow ≤ simOf r))
      if highQualityResults = [] then .ok results.head?
      else .ok (maxByFirst (fun r => r.weighted_score.getD 0) highQualityResults)
    else
      .ok (results.head?.map (fun fin => attachUnified fin results cfg))

/-- The candidate-assembly part of `retrieve` (lines 57-184): merge the
per-source results with their weights, then run the web retriever when
the trigger condition fires on the candidates gathered so far. -/
def retrieveCandidates (pyset : List String → List String) (embed : String → List ℚ)
    (sim : List ℚ → List ℚ → ℚ) (fetch : String → List (String × ℚ))
    (webFetch : WebFetch) (query : String) (pairs : List QaPair) (kbs : List KBConf)
    (cfg : AppConfig) (embedCfgPresent : Bool) : List Result :=
  let afterQa :=
    if cfg.enable_fixed_qa.getD false ∧ pairs ≠ [] then
      mergeFixedQa cfg (searchFixedQa pyset embed sim query pairs cfg embedCfgPresent)
    else []
  let afterKb := afterQa ++
    (if cfg.enable_vector_kb.getD false ∧ kbs ≠ [] then
      mergeKbResults cfg (searchKnowledgeBases fetch kbs cfg)
    else [])
  afterKb ++
    (if shouldTriggerWebSearch cfg afterKb then mergeWebResults cfg (searchWeb webFetch)
     else [])

/-- The fused outcome of `retrieve`: candidate assembly followed by the
fusion dispatcher.  `retrieve` has no handler around this call, so an
exception raised inside the fusion strategy escapes `retrieve` itself. -/
def retrieveFused (pyset : List String → List String) (embed : String → List ℚ)
    (sim : List ℚ → List ℚ → ℚ) (fetch : String → List (String × ℚ))
    (webFetch : WebFetch) (now query : String) (pairs : List QaPair) (kbs : List KBConf)
    (cfg : AppConfig) (embedCfgPresent : Bool) : Except PyErr (Option Result) :=
  applyFusionStrategy now
    (retrieveCandidates pyset embed sim fetch webFetch query pairs kbs cfg embedCfgPresent)
    cfg

/-! ### `embedding_engine.py` — cosine similarity utility -/

/-- `np.dot` on equal-length vectors. -/
def dotProduct (v w : List ℚ) : ℚ := (List.zipWith (· * ·) v w).sum

/-- Squared Euclidean norm; `np.linalg.norm` is its square root. -/
def normSq (v : List ℚ) : ℚ := (v.map (fun x => x ^ 2)).sum

/-- `EmbeddingEngine.compute_similarity`: 0.0 when either norm is zero
(the guard `norm1 == 0 or norm2 == 0`, decided here through the
equivalent rational test `normSq = 0`), otherwise
`dot / (norm1 * norm2)` over the reals. -/
noncomputable def computeSimilarity (v w : List ℚ) : ℝ :=
  if normSq v = 0 ∨ normSq w = 0 then 0
  else (dotProduct v w : ℝ) / (Real.sqrt (normSq v) * Real.sqrt (normSq w))

/-! ## Concrete claim inputs and spec-side definitions -/

/-- Claim C3 as the spec states it: trigger iff explicit zero-threshold
override, or realtime mode below the auto threshold, or *no strategy
mode configured* (spec reading of legacy mode) below the trigger
threshold. -/
def specWebTriggerHolds (cfg : AppConfig) (allResults : List Result) : Prop :=
  webTriggerThresholdOf cfg = 0 ∨
  (cfg.strategy_mode = some "realtime_knowledge" ∧
    maxConfidenceOf allResults < cfg.web_search_auto_threshold.getD 0.50) ∨
  (cfg.strategy_mode = none ∧ maxConfidenceOf allResults < webTriggerThresholdOf cfg)

/-- Knowledge base with weight 2 and boost factor 3. -/
def c4Kb : KBConf :=
  { name := "kb1", collection_name := "col", weight := some 2, boost_factor := some 3 }

/-- Tier-B witness candidates: a KB hit at 0.75 and two recent
web results at 0.95 from distinct news domains. -/
def c5Kb : Result := { source := some "kb", similarity := some (3/4) }

/-- First web candidate for the C5 witness. -/
def c5WebA : Result :=
  { source := some "tavily_web", similarity := some (19/20), relevance := some (19/20)
  , title := some "latest alpha", url := some "https://news.alpha.com/a" }

/-- Second web candidate for the C5 witness. -/
def c5WebB : Result :=
  { source := some "tavily_web", similarity := some (19/20), relevance := some (19/20)
  , title := some "latest beta", url := some "https://news.beta.com/b" }

/-- Claim-side score of C6 as the spec words it: the plain maximum of
the cosine similarities over the expanded-query vectors (no zero
floor), plus the keyword bonus, clamped to 1. -/
def specQaScore (sim : List ℚ → List ℚ → ℚ) (queryVectors : List (List ℚ))
    (keywords : List String) (qa : QaPair) (vec : List ℚ) : ℚ :=
  let maxSimilarity : ℚ :=
    match queryVectors.map (fun qv => sim qv vec) with
    | [] => 0
    | s :: ss => ss.foldl max s
  min (maxSimilarity + qaKeywordBoost keywords qa) 1

/-- The C6 counterexample pair: active, with a stored embedding, whose
question contains the query keyword. -/
def c6Pair : QaPair :=
  { qid := 1, question := "tuition", answer := "答案", embedding_vector := some [1]
  , is_active := some true }

/-- Configuration admitting every scored pair (floor and suggest
threshold zero, smart mode default). -/
def c6Cfg : AppConfig :=
  { fusion_config :=
      some { fixed_qa := some { qa_min_threshold := some 0, suggest_threshold := some 0 } } }

/-- The dates of the citations attached to a fusion outcome (observation
used to compare two fusion runs). -/
def citationDates (e : Except PyErr (Option Result)) : List (Option String) :=
  match e with
  | .ok (some r) =>
    match r.strategy_info with
    | some info => info.citations.map (fun ci => ci.date)
    | none => []
  | _ => []

/-- A KB candidate without any stored date field. -/
def c7Kb : Result :=
  { source := some "kb", similarity := some (9/10), text := some "规章制度" }

/-- The same candidate with an explicit date. -/
def c7KbDated : Result := { c7Kb with date := some "2024-06-01" }

/-- Accurate-priority fusion configuration. -/
def c7Cfg : AppConfig := { fusion_strategy := some "accurate_priority" }

/-- One admissible iteration order of a Python `set`: `list(set(l))`
listed back-to-front after duplicate removal. -/
def c8Set (l : List String) : List String := l.dedup.reverse

/-- Tier-B input for C9: a KB hit at 0.75 and two recent web results
whose relevances arrive in ascending order 0.91, 0.95. -/
def c9Kb : Result := { source := some "kb", similarity := some (3/4) }

/-- First web candidate (relevance 0.91). -/
def c9WebA : Result :=
  { source := some "tavily_web", similarity := some (91/100), relevance := some (91/100)
  , title := some "latest alpha", url := some "https://news.alpha.com/a" }

/-- Second web candidate (relevance 0.95). -/
def c9WebB : Result :=
  { source := some "tavily_web", similarity := some (95/100), relevance := some (95/100)
  , title := some "latest beta", url := some "https://news.beta.com/b" }

/-- The C9 candidate list. -/
def c9Results : List Result := [c9Kb, c9WebA, c9WebB]

/-- Accurate-priority configuration for C9. -/
def c9Cfg : AppConfig := { fusion_strategy := some "accurate_priority" }

/-- Clock value used in the C9 runs. -/
def c9Now : String := "2025-01-01"

/-- Citations the engine attaches on the C9 input. -/
def c9Citations : List Citation := generateNumberedCitations c9Now ([c9WebA, c9WebB].take 3)

/-- Strategy info the engine attaches on the C9 input. -/
def c9Info : StrategyInfo :=
  { tier := "B", confidence_level := "中", citations := c9Citations
  , explanation := "知识库信息不足，已从网络检索到相关内容" ++ webExplanationSuffix c9Citations
  , web_search_option := false
  , custom_message := some "ℹ️ 以下信息来自网络搜索" }

/-- The fusion winner on the C9 input. -/
def c9Winner : Result := { c9WebB with strategy_info := some c9Info }

/-- Unified-path web candidates for the C9 witness, carrying weighted
scores so the `weighted_avg` strategy picks the second one. -/
def c9UWeb1 : Result := { c9WebA with weighted_score := some (91/100) }

/-- Second unified-path web candidate (weighted score 0.95). -/
def c9UWeb2 : Result := { c9WebB with weighted_score := some (95/100) }

/-- Candidate list for the unified-path C9 witness. -/
def c9UResults : List Result := [c9UWeb1, c9UWeb2]

/-- Empty configuration: the fusion strategy defaults to
`weighted_avg`. -/
def c9UCfg : AppConfig := {}

/-- The unified strategy info attached to the C9 witness winner. -/
def c9UInfo : StrategyInfo := generateUnifiedStrategyInfo c9UWeb2 c9UResults c9UCfg

/-- The source tag and citation scores of a fusion outcome (observation
used to examine citation ordering). -/
def citScoresOf (e : Except PyErr (Option Result)) : Option (String × List ℚ) :=
  match e with
  | .ok (some r) =>
    some (srcOf r,
      match r.strategy_info with
      | some info => info.citations.map (fun ci => ci.internal_score)
      | none => [])
  | _ => none

/-! ## Claim theorems -/

/-! ### C1 — `retrieve` never throws (code bug) -/

/-- A single knowledge-base candidate at similarity 0.5. -/
def c1KbFetch : String → List (String × ℚ) := fun _ => [("知识库文档内容", 1)]

/-- Accurate-priority configuration whose KB floor admits the 0.5-similarity
document. -/
def c1Config : AppConfig :=
  { enable_vector_kb := some true
  , fusion_strategy := some "accurate_priority"
  , fusion_config := some { strategy := some { kb_min_threshold := some 0.4 } } }

/-- Claim C1 (code bug): the spec says `retrieve()` never throws and that
`apply_strategy` returns a well-formed tier response for every non-empty
candidate list whose best KB similarity is below the medium threshold.  The
code disagrees: the low-confidence branch of `apply_strategy` reads
`self.MEDIUM_CONFIDENCE_THRESHOLD`, an attribute the class never defines
(only `DEFAULT_MEDIUM_CONFIDENCE_THRESHOLD` exists), so a single KB
candidate of similarity 0.5 — below the medium threshold 0.70 — makes the
fused retrieval raise `AttributeError` instead of producing a
`RetrievalOutcome`. -/
theorem c1_low_confidence_raises :
    retrieveFused (fun l => l) (fun _ => []) (fun _ _ => 0) c1KbFetch .noChannel
      "2025-01-01" "询问" [] [{ collection_name := "col" }] c1Config true
      = .error .attributeError := by
  have hsearch : searchKnowledgeBases c1KbFetch [{ collection_name := "col" }] c1Config
      = [kbDocResult { collection_name := "col" } ("知识库文档内容", 1)] := by
    simp [searchKnowledgeBases, c1KbFetch, kbMinThresholdOf, kbMaxResultsOf,
      vectorRetrievalCfgOf, strategyCfgOf, c1Config, sortDescBy, insDescBy]
    norm_num [sortDescBy, insDescBy, keyGt]
  have htrig : shouldTriggerWebSearch c1Config
      (mergeKbResults c1Config [kbDocResult { collection_name := "col" } ("知识库文档内容", 1)])
      = false := by
    simp [shouldTriggerWebSearch, c1Config]
  have hcands : retrieveCandidates (fun l => l) (fun _ => []) (fun _ _ => 0) c1KbFetch
      .noChannel "询问" [] [{ collection_name := "col" }] c1Config true
      = mergeKbResults c1Config [kbDocResult { collection_name := "col" } ("知识库文档内容", 1)] := by
    simp [retrieveCandidates, hsearch, htrig,
      show c1Config.enable_fixed_qa.getD false = false from by simp [c1Config],
      show c1Config.enable_vector_kb.getD false = true from by simp [c1Config]]
  have hfinal : applyFusionStrategy "2025-01-01"
      (mergeKbResults c1Config [kbDocResult { collection_name := "col" } ("知识库文档内容", 1)])
      c1Config = .error .attributeError := by
    simp [applyFusionStrategy, applyStrategy, mergeKbResults, kbDocResult, c1Config,
      highThresholdOf, mediumThresholdOf, qaDirectThresholdOf, strategyCfgOf,
      kbResultsOf, webResultsOf, fixedQaResultsOf, maxByFirst, simOf, srcOf, webSources,
      List.filter, Option.filter, classAttr, strategyClassAttrs, List.find?,
      DEFAULT_HIGH_CONFIDENCE_THRESHOLD, DEFAULT_MEDIUM_CONFIDENCE_THRESHOLD]
    norm_num
  have hstep : retrieveFused (fun l => l) (fun _ => []) (fun _ _ => 0) c1KbFetch .noChannel
      "2025-01-01" "询问" [] [{ collection_name := "col" }] c1Config true
      = applyFusionStrategy "2025-01-01"
        (retrieveCandidates (fun l => l) (fun _ => []) (fun _ _ => 0) c1KbFetch
          .noChannel "询问" [] [{ collection_name := "col" }] c1Config true) c1Config := rfl
  rw [hstep, hcands, hfinal]

/-! ### C2 — failed web sources and error-shaped entries (corrected) -/

/-- Claim C2 counterexample: the spec says a failed web-search call
contributes an empty candidate list and never an error-shaped entry.
When the handler of `_search_web` catches an exception it instead
returns a `search_error` entry, and the merge loop of `retrieve` gives
that entry the default similarity 0.5 — a nonzero score — and a weighted
score, so it participates in fusion. -/
theorem c2_error_entry_counterexample :
    (mergeWebResults {} (searchWeb (.outerRaised "数据库连接失败"))).map
        (fun r => (r.source, r.similarity, r.weighted_score))
      = [(some "search_error", some (1/2), some (3/10))] ∧ ((1 : ℚ)/2 ≠ 0) := by
  constructor
  · simp [mergeWebResults, searchWeb, searchErrorResult]
    norm_num
  · norm_num

/-- Claim C2 amended: only failures inside the Tavily client itself
(HTTP errors, timeouts — `success = False`) yield an empty candidate
list.  An exception escaping `_search_with_tavily` contributes one
`tavily_error` entry with similarity 0, and an exception escaping
`_search_web` contributes one `search_error` entry that acquires the
default similarity 0.5 and weighted score 0.5 × webSearchWeight in the
merge loop. -/
theorem c2_failed_source_entries (resp : TavilyResponse) (msg : String) (cfg : AppConfig) :
    (resp.success = false → formatResultsForRag resp = []) ∧
    (mergeWebResults cfg (searchWeb (.tavilyRaised msg))).map
        (fun r => (r.source, r.similarity, r.weighted_score))
      = [(some "tavily_error", some 0, some 0)] ∧
    (mergeWebResults cfg (searchWeb (.outerRaised msg))).map
        (fun r => (r.source, r.similarity, r.weighted_score))
      = [(some "search_error", some (1/2),
          some (1/2 * cfg.web_search_weight.getD (3/5)))] := by
  refine ⟨fun h => ?_, ?_, ?_⟩
  · simp [formatResultsForRag, h]
  · simp [mergeWebResults, searchWeb, tavilyErrorResult]
  · simp [mergeWebResults, searchWeb, searchErrorResult]
    norm_num

/-- Witness for C2: a failed Tavily response produces no candidates. -/
theorem c2_failed_source_entries_witness :
    formatResultsForRag { success := false } = [] :=
  (c2_failed_source_entries { success := false } "err" {}).1 rfl

/-! ### C3 — web-search trigger condition (corrected) -/


/-- Claim C3 counterexample: web search enabled, no strategy mode
configured, trigger threshold at its default 0.70 and no prior
candidates.  The spec condition (c) holds (legacy mode, best prior score
0 < 0.70) — and it is the only one of the three that holds — yet the
code does not trigger: an absent strategy mode defaults to
`safe_priority`, which never auto-triggers. -/
theorem c3_counterexample :
    specWebTriggerHolds { enable_web_search := some true } [] ∧
      shouldTriggerWebSearch { enable_web_search := some true } [] = false := by
  constructor
  · refine Or.inr (Or.inr ⟨rfl, ?_⟩)
    simp [maxConfidenceOf, webTriggerThresholdOf]
    norm_num
  · simp [shouldTriggerWebSearch, webTriggerThresholdOf]
    norm_num

/-- Claim C3 amended: with web search enabled, the retriever triggers
iff (a) the trigger threshold is exactly 0; or (b) it is nonzero, the
effective strategy mode — `strategy_mode` defaulting to `safe_priority`
when unset — is `realtime_knowledge`, and the best prior score is below
`web_search_auto_threshold` (default 0.50); or (c) it is nonzero, the
effective mode is neither `safe_priority` nor `realtime_knowledge`
(legacy mode requires an explicitly configured unrecognised mode), and
the best prior score is below the trigger threshold.  In particular
under the effective mode `safe_priority` only the zero-threshold
override triggers. -/
theorem c3_trigger_characterisation (cfg : AppConfig) (allResults : List Result)
    (henabled : cfg.enable_web_search.getD false = true) :
    (shouldTriggerWebSearch cfg allResults = true ↔
      (webTriggerThresholdOf cfg = 0 ∨
       (webTriggerThresholdOf cfg ≠ 0 ∧
         cfg.strategy_mode.getD "safe_priority" = "realtime_knowledge" ∧
         maxConfidenceOf allResults < cfg.web_search_auto_threshold.getD 0.50) ∨
       (webTriggerThresholdOf cfg ≠ 0 ∧
         cfg.strategy_mode.getD "safe_priority" ≠ "safe_priority" ∧
         cfg.strategy_mode.getD "safe_priority" ≠ "realtime_knowledge" ∧
         maxConfidenceOf allResults < webTriggerThresholdOf cfg))) ∧
    (cfg.strategy_mode.getD "safe_priority" = "safe_priority" →
      (shouldTriggerWebSearch cfg allResults = true ↔ webTriggerThresholdOf cfg = 0)) := by
  have hmain : shouldTriggerWebSearch cfg allResults = true ↔
      (webTriggerThresholdOf cfg = 0 ∨
       (webTriggerThresholdOf cfg ≠ 0 ∧
         cfg.strategy_mode.getD "safe_priority" = "realtime_knowledge" ∧
         maxConfidenceOf allResults < cfg.web_search_auto_threshold.getD 0.50) ∨
       (webTriggerThresholdOf cfg ≠ 0 ∧
         cfg.strategy_mode.getD "safe_priority" ≠ "safe_priority" ∧
         cfg.strategy_mode.getD "safe_priority" ≠ "realtime_knowledge" ∧
         maxConfidenceOf allResults < webTriggerThresholdOf cfg)) := by
    unfold shouldTriggerWebSearch
    rw [henabled]
    by_cases h0 : webTriggerThresholdOf cfg = 0
    · simp [h0]
    · by_cases hsafe : cfg.strategy_mode.getD "safe_priority" = "safe_priority"
      · simp [h0, hsafe]
      · by_cases hreal : cfg.strategy_mode.getD "safe_priority" = "realtime_knowledge"
        · simp [h0, hsafe, hreal]
        · simp [h0, hsafe, hreal]
  refine ⟨hmain, fun hsafe => ?_⟩
  rw [hmain]
  simp [hsafe]

/-- Witness for C3: enabled realtime-knowledge mode with no prior
candidates auto-triggers (score 0 below the default auto threshold). -/
theorem c3_trigger_characterisation_witness :
    shouldTriggerWebSearch
      { enable_web_search := some true, strategy_mode := some "realtime_knowledge" } []
      = true := by
  have h := (c3_trigger_characterisation
    { enable_web_search := some true, strategy_mode := some "realtime_knowledge" } []
    (by simp)).1
  rw [h]
  refine Or.inr (Or.inl ⟨?_, by simp, ?_⟩)
  · simp [webTriggerThresholdOf]
    norm_num
  · simp [maxConfidenceOf]
    norm_num

/-! ### C4 — weighted score of knowledge-base candidates (corrected) -/


/-- Claim C4 counterexample: a KB document at distance 1/4 (similarity
0.8) from a base with weight 2 and boost 3.  The spec says the
fusion-ranking `weighted_score` is similarity × weight × boost = 4.8; the
code sets `weighted_score = similarity × vector_kb_weight` (default 1),
i.e. 0.8 — the weight/boost product only reaches the retriever-internal
`weighted_similarity`. -/
theorem c4_counterexample :
    (mergeKbResults {} (searchKnowledgeBases (fun _ => [("文档内容", 1/4)]) [c4Kb] {})).map
        (fun r => (r.similarity, r.weighted_score, r.weighted_similarity))
      = [(some (4/5), some (4/5), some (24/5))] ∧ ((4:ℚ)/5 ≠ 4/5 * 2 * 3) := by
  constructor
  · simp [mergeKbResults, searchKnowledgeBases, c4Kb, kbDocResult, kbMinThresholdOf,
      kbMaxResultsOf, vectorRetrievalCfgOf, strategyCfgOf, sortDescBy, insDescBy, keyGt]
    norm_num [sortDescBy, insDescBy, keyGt]
  · norm_num

/-- Claim C4 amended: the fixed-Q&A part of the claim holds —
`weighted_score = similarity × fixed_qa_weight` — and for KB candidates
the fusion-ranking `weighted_score` is `similarity × vector_kb_weight`
(the global web of per-source weights), while the per-base
`weight × boost_factor` product is applied to the separate
`weighted_similarity` field used to order and truncate candidates inside
the KB retriever. -/
theorem c4_weighted_scores (cfg : AppConfig) (rs : List Result) (kb : KBConf)
    (doc : String × ℚ) :
    (∀ m ∈ mergeFixedQa cfg rs,
      m.weighted_score = some (m.similarity.getD 0 * cfg.fixed_qa_weight.getD 1)) ∧
    (∀ m ∈ mergeKbResults cfg rs,
      m.weighted_score = some (m.similarity.getD 0 * cfg.vector_kb_weight.getD 1)) ∧
    (kbDocResult kb doc).weighted_similarity
      = some ((kbDocResult kb doc).similarity.getD 0 * kb.weight.getD 1
          * kb.boost_factor.getD 1) := by
  refine ⟨?_, ?_, ?_⟩
  · intro m hm
    obtain ⟨r, _, rfl⟩ := List.mem_map.mp hm
    simp [mergeFixedQa]
  · intro m hm
    obtain ⟨r, _, rfl⟩ := List.mem_map.mp hm
    simp [mergeKbResults]
  · simp [kbDocResult]

/-- Witness for C4: a merged fixed-Q&A candidate at similarity 0.9 and
weight 1/2 carries weighted score 0.45. -/
theorem c4_weighted_scores_witness :
    (mergeFixedQa { fixed_qa_weight := some (1/2) } [{ similarity := some (9/10) }]).map
        (fun r => r.weighted_score) = [some (9/20)] := by
  have h := (c4_weighted_scores { fixed_qa_weight := some (1/2) }
    [{ similarity := some (9/10) }] {} ("", 0)).1
  have hm : ∀ m ∈ mergeFixedQa { fixed_qa_weight := some (1/2) }
      [({ similarity := some (9/10) } : Result)],
      m.weighted_score = some (m.similarity.getD 0 * (1/2)) := by
    intro m hmem
    simpa using h m hmem
  simp only [mergeFixedQa, List.map_map, List.map_cons, List.map_nil]
  simp [mergeFixedQa] at hm
  simp [hm]
  norm_num

/-! ### C10 — total cosine similarity (confirmed) -/

/-- The squared norm is a sum of squares, hence nonnegative. -/
theorem normSq_nonneg (v : List ℚ) : 0 ≤ normSq v := by
  apply List.sum_nonneg
  intro x hx
  obtain ⟨y, _, rfl⟩ := List.mem_map.mp hx
  positivity

/-- Claim C10 (confirmed): `compute_similarity` is total — whenever
either vector has zero norm it returns exactly 0.0 without entering the
division branch, and otherwise it returns
`dot / (norm1 × norm2)` with a provably nonzero divisor. -/
theorem c10_cosine_total (v w : List ℚ) :
    (Real.sqrt (normSq v) = 0 ∨ Real.sqrt (normSq w) = 0 → computeSimilarity v w = 0) ∧
    (Real.sqrt (normSq v) ≠ 0 → Real.sqrt (normSq w) ≠ 0 →
      computeSimilarity v w
          = (dotProduct v w : ℝ) / (Real.sqrt (normSq v) * Real.sqrt (normSq w)) ∧
        Real.sqrt (normSq v) * Real.sqrt (normSq w) ≠ 0) := by
  have hv : (0:ℝ) ≤ (normSq v : ℝ) := by exact_mod_cast normSq_nonneg v
  have hw : (0:ℝ) ≤ (normSq w : ℝ) := by exact_mod_cast normSq_nonneg w
  have hv0 : Real.sqrt (normSq v) = 0 ↔ normSq v = 0 := by
    rw [Real.sqrt_eq_zero hv]
    exact_mod_cast Iff.rfl
  have hw0 : Real.sqrt (normSq w) = 0 ↔ normSq w = 0 := by
    rw [Real.sqrt_eq_zero hw]
    exact_mod_cast Iff.rfl
  constructor
  · intro h
    have : normSq v = 0 ∨ normSq w = 0 := by
      rcases h with h | h
      · exact Or.inl (hv0.mp h)
      · exact Or.inr (hw0.mp h)
    simp [computeSimilarity, this]
  · intro h1 h2
    have hne : ¬ (normSq v = 0 ∨ normSq w = 0) := by
      rintro (h | h)
      · exact h1 (hv0.mpr h)
      · exact h2 (hw0.mpr h)
    refine ⟨by simp [computeSimilarity, hne], mul_ne_zero h1 h2⟩

/-- Witness for C10: the zero vector pairs to similarity 0, and two
identical unit vectors pair to similarity 1. -/
theorem c10_cosine_total_witness :
    computeSimilarity [(0:ℚ)] [1] = 0 ∧ computeSimilarity [(1:ℚ)] [1] = 1 := by
  constructor
  · apply (c10_cosine_total [(0:ℚ)] [1]).1
    left
    have : normSq [(0:ℚ)] = 0 := by simp [normSq]
    rw [this]
    simp
  · have h := (c10_cosine_total [(1:ℚ)] [1]).2
    have h1 : normSq [(1:ℚ)] = 1 := by simp [normSq]
    have hs : Real.sqrt ((normSq [(1:ℚ)] : ℚ) : ℝ) = 1 := by
      rw [h1]
      simp
    have := h (by rw [hs]; norm_num) (by rw [hs]; norm_num)
    rw [this.1, hs]
    have hd : dotProduct [(1:ℚ)] [1] = 1 := by simp [dotProduct]
    rw [hd]
    norm_num

/-! ### C5 — tier-B web-override test (confirmed) -/

/-- The population variance is nonnegative. -/
theorem varQ_nonneg (l : List ℚ) : 0 ≤ varQ l := by
  unfold varQ
  apply div_nonneg
  · apply List.sum_nonneg
    intro x hx
    obtain ⟨y, _, rfl⟩ := List.mem_map.mp hx
    positivity
  · positivity

/-- The decidable squared comparison of `consensusScorePasses` agrees
with the real-valued consensus formula
`mean · max(0, 1 − 2·stdDev) ≥ 0.88` of `_check_web_consensus`. -/
theorem sqrtGate (a v : ℚ) (hv : 0 ≤ v) :
    (WEB_CONSENSUS_THRESHOLD ≤ a ∧
      4 * a ^ 2 * v ≤ (a - WEB_CONSENSUS_THRESHOLD) ^ 2) ↔
    (((WEB_CONSENSUS_THRESHOLD : ℚ) : ℝ) ≤ (a : ℝ) * max 0 (1 - 2 * Real.sqrt (v : ℝ))) := by
  have hvR : (0:ℝ) ≤ (v : ℝ) := by exact_mod_cast hv
  have hWq : (0:ℚ) < WEB_CONSENSUS_THRESHOLD := by norm_num [WEB_CONSENSUS_THRESHOLD]
  have hWpos : (0:ℝ) < ((WEB_CONSENSUS_THRESHOLD : ℚ) : ℝ) := by exact_mod_cast hWq
  generalize hWgen : ((WEB_CONSENSUS_THRESHOLD : ℚ) : ℝ) = W at *
  set s : ℝ := Real.sqrt (v : ℝ) with hs
  have hsnn : 0 ≤ s := Real.sqrt_nonneg _
  have hs2 : s ^ 2 = (v : ℝ) := Real.sq_sqrt hvR
  constructor
  · rintro ⟨ha, hsq⟩
    have haR : W ≤ (a : ℝ) := by rw [← hWgen]; exact_mod_cast ha
    have hsqR : 4 * (a:ℝ) ^ 2 * (v:ℝ) ≤ ((a:ℝ) - W) ^ 2 := by
      rw [← hWgen]; exact_mod_cast hsq
    have hapos : (0:ℝ) < (a:ℝ) := lt_of_lt_of_le hWpos haR
    have hkey : 2 * (a:ℝ) * s ≤ (a:ℝ) - W := by
      nlinarith [sq_nonneg ((a:ℝ) - W - 2 * (a:ℝ) * s),
        sq_nonneg ((a:ℝ) - W + 2 * (a:ℝ) * s),
        mul_nonneg (mul_nonneg (by norm_num : (0:ℝ) ≤ 2) hapos.le) hsnn]
    have hmx : max 0 (1 - 2 * s) = 1 - 2 * s := by
      apply max_eq_right
      nlinarith
    rw [hmx]
    nlinarith
  · intro h
    have hmle : max 0 (1 - 2 * s) ≤ 1 := by
      apply max_le (by norm_num)
      nlinarith
    have hmnn : 0 ≤ max 0 (1 - 2 * s) := le_max_left _ _
    have hapos : (0:ℝ) < (a:ℝ) := by
      by_contra hc
      push_neg at hc
      nlinarith
    have haR : W ≤ (a:ℝ) := by
      calc W ≤ (a:ℝ) * max 0 (1 - 2 * s) := h
        _ ≤ (a:ℝ) * 1 := mul_le_mul_of_nonneg_left hmle hapos.le
        _ = (a:ℝ) := mul_one _
    have hmx : max 0 (1 - 2 * s) = 1 - 2 * s := by
      rcases max_cases 0 (1 - 2 * s) with ⟨he, hle⟩ | ⟨he, _⟩
      · rw [he] at h
        nlinarith
      · exact he
    rw [hmx] at h
    have hkey : 2 * (a:ℝ) * s ≤ (a:ℝ) - W := by nlinarith
    have hsqR : 4 * (a:ℝ) ^ 2 * (v:ℝ) ≤ ((a:ℝ) - W) ^ 2 := by
      nlinarith [mul_nonneg (mul_nonneg (by norm_num : (0:ℝ) ≤ 2) hapos.le) hsnn]
    rw [← hWgen] at haR hsqR
    exact ⟨by exact_mod_cast haR, by exact_mod_cast hsqR⟩

/-- Two distinct cited domains require at least two web results. -/
theorem two_le_length_of_domains (ws : List Result) (h : 2 ≤ consensusDomains ws) :
    2 ≤ ws.length := by
  unfold consensusDomains at h
  calc 2 ≤ _ := h
    _ ≤ (ws.filterMap _).length := (List.dedup_sublist _).length_le
    _ ≤ ws.length := List.length_filterMap_le _ _

/-- `consensusScorePasses` agrees with the claim-side condition: at
least two distinct result domains and real consensus score at least
0.88. -/
theorem consensusPasses_iff (ws : List Result) :
    consensusScorePasses ws = true ↔
      (2 ≤ consensusDomains ws ∧
        ((WEB_CONSENSUS_THRESHOLD : ℚ) : ℝ) ≤ (meanQ (simsOf ws) : ℝ) *
          max 0 (1 - 2 * Real.sqrt (varQ (simsOf ws)))) := by
  by_cases hlen : ws.length < 2
  · have hF : consensusScorePasses ws = false := by
      simp [consensusScorePasses, hlen]
    rw [hF]
    simp only [Bool.false_eq_true, false_iff]
    rintro ⟨hd, _⟩
    exact absurd (two_le_length_of_domains ws hd) (by omega)
  · by_cases hdom : consensusDomains ws < 2
    · have hF : consensusScorePasses ws = false := by
        simp [consensusScorePasses, hlen, hdom]
      rw [hF]
      simp only [Bool.false_eq_true, false_iff]
      rintro ⟨hd, _⟩
      omega
    · have hT : consensusScorePasses ws
          = decide (WEB_CONSENSUS_THRESHOLD ≤ meanQ (simsOf ws) ∧
              4 * meanQ (simsOf ws) ^ 2 * varQ (simsOf ws)
                ≤ (meanQ (simsOf ws) - WEB_CONSENSUS_THRESHOLD) ^ 2) := by
        simp [consensusScorePasses, hlen, hdom]
      rw [hT, decide_eq_true_eq, sqrtGate _ _ (varQ_nonneg _)]
      constructor
      · intro h
        exact ⟨by omega, h⟩
      · intro h
        exact h.2

/-- The cautious tier-B response and the web-override tier-B response
are never the same value (their custom messages differ). -/
theorem bTier_ne_bTierWeb (now : String) (b : Option Result) (kbs ws : List Result) :
    createBTierResponse now b kbs ≠ createBTierWebResponse now ws := by
  intro h
  have hmsg := congrArg StratResponse.custom_message h
  simp [createBTierResponse, createBTierWebResponse] at hmsg

/-- `_should_use_web_over_kb` with a present KB result never raises and
computes the conjunction of its three checks. -/
theorem shouldUseWebOverKb_eq (k : Result) (ws : List Result) :
    shouldUseWebOverKb (some k) ws =
      .ok (consensusScorePasses ws &&
        (decide (WEB_ADVANTAGE_THRESHOLD ≤ maxKeyVal simOf ws - simOf k) &&
          checkTimestampEvidence ws)) := by
  unfold shouldUseWebOverKb
  by_cases h1 : consensusScorePasses ws
  · simp only [h1, not_true_eq_false, if_false, Bool.true_and]
    by_cases h2 : maxKeyVal simOf ws - simOf k < WEB_ADVANTAGE_THRESHOLD
    · rw [if_pos h2]
      simp [not_le.mpr h2]
    · rw [if_neg h2]
      simp [not_lt.mp h2]
  · simp [h1]

/-- Claim C5 (confirmed): in tier B of the accurate-priority strategy —
non-empty candidates, no fixed-Q&A shortcut, best KB similarity in
`[kbContextThreshold, kbHighConfidenceThreshold)` — the web answer
overrides the KB answer iff all three sub-conditions hold: (a) at least
two distinct result domains with
`meanRelevance · max(0, 1 − 2·stdDev) ≥ 0.88`; (b) the best web score
exceeds the KB score by at least 0.15; and (c) the recency-evidence
score (+3 AI answer, +0.5 per recency token, +1 per authoritative
domain) reaches 2.0. -/
theorem c5_web_override_iff (now : String) (results : List Result) (cfg : AppConfig)
    (k : Result)
    (hne : results ≠ [])
    (hqa : (maxByFirst simOf (fixedQaResultsOf results)).filter
        (fun bq => decide (qaDirectThresholdOf cfg ≤ simOf bq)) = none)
    (hbk : maxByFirst simOf (kbResultsOf results) = some k)
    (hmed : mediumThresholdOf cfg ≤ simOf k)
    (hhigh : simOf k < highThresholdOf cfg) :
    applyStrategy now results cfg
        = .ok (createBTierWebResponse now (webResultsOf results)) ↔
      (2 ≤ consensusDomains (webResultsOf results) ∧
        (0.88 : ℝ) ≤ (meanQ (simsOf (webResultsOf results)) : ℝ) *
          max 0 (1 - 2 * Real.sqrt (varQ (simsOf (webResultsOf results)))) ∧
        WEB_ADVANTAGE_THRESHOLD ≤ maxKeyVal simOf (webResultsOf results) - simOf k ∧
        2 ≤ evidenceScore (webResultsOf results)) := by
  have hcast : ((WEB_CONSENSUS_THRESHOLD : ℚ) : ℝ) = (0.88 : ℝ) := by
    norm_num [WEB_CONSENSUS_THRESHOLD]
  have hred : applyStrategy now results cfg =
      (match webResultsOf results with
       | [] => .ok (createBTierResponse now (some k) ((kbResultsOf results).take 3))
       | _ :: _ =>
         match shouldUseWebOverKb (some k) (webResultsOf results) with
         | .error e => .error e
         | .ok true => .ok (createBTierWebResponse now (webResultsOf results))
         | .ok false =>
           .ok (createBTierResponse now (some k) ((kbResultsOf results).take 3))) := by
    unfold applyStrategy
    rw [if_neg hne]
    simp only [hqa, hbk, Option.map_some', Option.getD_some]
    rw [if_neg (not_le.mpr hhigh), if_pos hmed]
  rw [hred]
  cases hw : webResultsOf results with
  | nil =>
    constructor
    · intro h
      exact absurd (Except.ok.inj h) (bTier_ne_bTierWeb now (some k) _ _)
    · rintro ⟨hd, _⟩
      simp [consensusDomains] at hd
  | cons w ws' =>
    rw [shouldUseWebOverKb_eq]
    have hconsensus := consensusPasses_iff (w :: ws')
    rw [hcast] at hconsensus
    cases hbool : (consensusScorePasses (w :: ws') &&
        (decide (WEB_ADVANTAGE_THRESHOLD ≤ maxKeyVal simOf (w :: ws') - simOf k) &&
          checkTimestampEvidence (w :: ws'))) with
    | true =>
      simp only []
      constructor
      · intro _
        simp only [Bool.and_eq_true, decide_eq_true_eq] at hbool
        obtain ⟨h1, h2, h3⟩ := hbool
        have hc := hconsensus.mp h1
        have he : 2 ≤ evidenceScore (w :: ws') := by
          unfold checkTimestampEvidence at h3
          exact of_decide_eq_true h3
        exact ⟨hc.1, hc.2, h2, he⟩
      · intro _
        simp
    | false =>
      simp only []
      constructor
      · intro h
        simp only [show (match w :: ws' with
            | [] => (Except.ok (createBTierResponse now (some k)
                ((kbResultsOf results).take 3)) : Except PyErr StratResponse)
            | _ :: _ =>
              match (Except.ok false : Except PyErr Bool) with
              | .error e => .error e
              | .ok true => Except.ok (createBTierWebResponse now (w :: ws'))
              | .ok false => Except.ok (createBTierResponse now (some k)
                  ((kbResultsOf results).take 3)))
            = Except.ok (createBTierResponse now (some k)
                ((kbResultsOf results).take 3)) from rfl] at h
        exact absurd (Except.ok.inj h) (bTier_ne_bTierWeb now (some k) _ _)
      · rintro ⟨hd, hreal, hadv, hev⟩
        rw [Bool.and_eq_false_iff] at hbool
        rcases hbool with hb | hb
        · exact absurd (hconsensus.mpr ⟨hd, hreal⟩) (by simp [hb])
        · rw [Bool.and_eq_false_iff] at hb
          rcases hb with hb | hb
          · simp only [decide_eq_false_iff_not] at hb
            exact absurd hadv hb
          · unfold checkTimestampEvidence at hb
            simp only [decide_eq_false_iff_not] at hb
            exact absurd hev hb




/-- Witness for C5: on the concrete tier-B input all three override
conditions hold (two domains, consensus 0.95, advantage 0.20, evidence
3.0), so the strategy answers from the web. -/
theorem c5_web_override_iff_witness :
    applyStrategy "2025-01-01" [c5Kb, c5WebA, c5WebB] {} =
      .ok (createBTierWebResponse "2025-01-01" (webResultsOf [c5Kb, c5WebA, c5WebB])) := by
  have hqa : (maxByFirst simOf (fixedQaResultsOf [c5Kb, c5WebA, c5WebB])).filter
      (fun bq => decide (qaDirectThresholdOf {} ≤ simOf bq)) = none := by
    simp [fixedQaResultsOf, maxByFirst, srcOf, c5Kb, c5WebA, c5WebB, List.filter]
  have hbk : maxByFirst simOf (kbResultsOf [c5Kb, c5WebA, c5WebB]) = some c5Kb := by
    simp [kbResultsOf, maxByFirst, srcOf, c5Kb, c5WebA, c5WebB, List.filter]
  have hweb : webResultsOf [c5Kb, c5WebA, c5WebB] = [c5WebA, c5WebB] := by
    simp [webResultsOf, srcOf, c5Kb, c5WebA, c5WebB, List.filter, webSources]
  have hmed : mediumThresholdOf {} ≤ simOf c5Kb := by
    norm_num [mediumThresholdOf, strategyCfgOf, DEFAULT_MEDIUM_CONFIDENCE_THRESHOLD,
      simOf, c5Kb]
  have hhigh : simOf c5Kb < highThresholdOf {} := by
    norm_num [highThresholdOf, strategyCfgOf, DEFAULT_HIGH_CONFIDENCE_THRESHOLD,
      simOf, c5Kb]
  apply (c5_web_override_iff "2025-01-01" [c5Kb, c5WebA, c5WebB] {} c5Kb
    (by simp) hqa hbk hmed hhigh).mpr
  rw [hweb]
  refine ⟨?_, ?_, ?_, ?_⟩
  · show 2 ≤ consensusDomains [c5WebA, c5WebB]
    have : consensusDomains [c5WebA, c5WebB] = 2 := by decide
    omega
  · have hm : meanQ (simsOf [c5WebA, c5WebB]) = 19/20 := by
      norm_num [meanQ, simsOf, simOf, c5WebA, c5WebB]
    have hv : varQ (simsOf [c5WebA, c5WebB]) = 0 := by
      norm_num [varQ, meanQ, simsOf, simOf, c5WebA, c5WebB]
    rw [hm, hv]
    have h0 : ((0:ℚ):ℝ) = 0 := by norm_num
    rw [h0, Real.sqrt_zero]
    norm_num
  · norm_num [maxKeyVal, simOf, WEB_ADVANTAGE_THRESHOLD, c5Kb, c5WebA, c5WebB]
  · have hA : resultEvidence c5WebA = 3/2 := by
      unfold resultEvidence
      rw [if_neg (by decide : ¬ (srcOf c5WebA = "tavily_answer"))]
      simp only []
      rw [if_pos (by decide), if_pos (by decide)]
      norm_num
    have hB : resultEvidence c5WebB = 3/2 := by
      unfold resultEvidence
      rw [if_neg (by decide : ¬ (srcOf c5WebB = "tavily_answer"))]
      simp only []
      rw [if_pos (by decide), if_pos (by decide)]
      norm_num
    show (2:ℚ) ≤ evidenceScore [c5WebA, c5WebB]
    rw [show evidenceScore [c5WebA, c5WebB] = resultEvidence c5WebA + resultEvidence c5WebB
      from by simp [evidenceScore]]
    rw [hA, hB]
    norm_num

/-! ### Sorting and fold helper lemmas -/

/-- Membership in the stable-descending insert. -/
theorem mem_insDescBy {gt : α → α → Bool} {x y : α} {l : List α} :
    y ∈ insDescBy gt x l ↔ y = x ∨ y ∈ l := by
  induction l with
  | nil => simp [insDescBy]
  | cons z zs ih =>
    by_cases h : gt z x
    · rw [insDescBy, if_pos h]
      simp only [List.mem_cons, ih]
      tauto
    · rw [insDescBy, if_neg h]
      simp only [List.mem_cons]

/-- The stable descending sort does not change membership. -/
theorem mem_sortDescBy {gt : α → α → Bool} {y : α} {l : List α} :
    y ∈ sortDescBy gt l ↔ y ∈ l := by
  induction l with
  | nil => simp [sortDescBy]
  | cons z zs ih =>
    rw [sortDescBy, mem_insDescBy]
    simp only [List.mem_cons, ih]

/-- Inserting into a key-descending list keeps it key-descending. -/
theorem pairwise_insDescBy (key : α → ℚ) (x : α) (l : List α)
    (h : l.Pairwise (fun a b => key b ≤ key a)) :
    (insDescBy (keyGt key) x l).Pairwise (fun a b => key b ≤ key a) := by
  induction l with
  | nil => simp [insDescBy]
  | cons z zs ih =>
    by_cases hzx : keyGt key z x
    · rw [insDescBy, if_pos hzx]
      rcases List.pairwise_cons.mp h with ⟨hz, hzs⟩
      refine List.Pairwise.cons ?_ (ih hzs)
      intro b hb
      rcases mem_insDescBy.mp hb with rfl | hb
      · exact le_of_lt (of_decide_eq_true (by simpa [keyGt] using hzx))
      · exact hz b hb
    · rw [insDescBy, if_neg hzx]
      refine List.Pairwise.cons ?_ h
      intro b hb
      have hzx' : key z ≤ key x := le_of_not_lt (by simpa [keyGt] using hzx)
      rcases List.mem_cons.mp hb with rfl | hb
      · exact hzx'
      · exact le_trans ((List.pairwise_cons.mp h).1 b hb) hzx'

/-- The stable descending sort yields a key-descending list. -/
theorem pairwise_sortDescBy (key : α → ℚ) (l : List α) :
    (sortDescBy (keyGt key) l).Pairwise (fun a b => key b ≤ key a) := by
  induction l with
  | nil => simp [sortDescBy]
  | cons z zs ih => exact pairwise_insDescBy key z _ ih

/-- Invariant lemma for list-accumulator folds: any property that holds
of the seed elements and of everything a step can append holds of the
final accumulated list. -/
theorem foldl_acc_inv {α : Type _} (P : Result → Prop) (step : List Result → α → List Result)
    (l : List α) (init : List Result)
    (hinit : ∀ x ∈ init, P x)
    (hstep : ∀ acc a, a ∈ l → (∀ x ∈ acc, P x) → ∀ x ∈ step acc a, P x) :
    ∀ x ∈ l.foldl step init, P x := by
  induction l generalizing init with
  | nil => exact hinit
  | cons a as ih =>
    intro x hx
    refine ih (step init a) (hstep init a (by simp) hinit) ?_ x hx
    intro acc b hb hacc
    exact hstep acc b (by simp [hb]) hacc

/-- Invariant lemma for folds whose state is an accumulator paired with
a stop flag. -/
theorem foldl_accStop_inv {α : Type _} (P : Result → Prop)
    (step : List Result × Bool → α → List Result × Bool)
    (l : List α) (init : List Result × Bool)
    (hinit : ∀ x ∈ init.1, P x)
    (hstep : ∀ st a, a ∈ l → (∀ x ∈ st.1, P x) → ∀ x ∈ (step st a).1, P x) :
    ∀ x ∈ (l.foldl step init).1, P x := by
  induction l generalizing init with
  | nil => exact hinit
  | cons a as ih =>
    intro x hx
    refine ih (step init a) (hstep init a (by simp) hinit) ?_ x hx
    intro st b hb hst
    exact hstep st b (by simp [hb]) hst

/-! ### C6 — fixed-Q&A scoring (corrected) -/




/-- Claim C6 counterexample: with a (realisable) cosine value of −1
between the query vector and the stored pair embedding, the code floors
the best-of-paraphrase maximum at 0 — `max_similarity` starts from 0.0 —
and returns score 0 + keyword bonus 0.05 = 0.05, keeping the pair.  The
claim formula gives −1 + 0.05 = −0.95, a different score which is
moreover strictly below the threshold 0, so the claim would drop the
pair. -/
theorem c6_counterexample :
    pySetValid (fun l => l.dedup) ∧
    (searchFixedQa (fun l => l.dedup) (fun _ => [1]) (fun _ _ => -1) "tuition" [c6Pair]
        c6Cfg true).map (fun r => r.similarity) = [some (1/20)] ∧
    specQaScore (fun _ _ => -1) (qaQueryVectors (fun l => l.dedup) (fun _ => [1]) "tuition")
        (extractKeywords (fun l => l.dedup) "tuition") c6Pair [1] = -(19/20) ∧
    (-(19/20) : ℚ) < qaMinThresholdOf c6Cfg := by
  have hvalid : pySetValid (fun l => l.dedup) := by
    intro l
    exact ⟨List.nodup_dedup l, fun x => List.mem_dedup⟩
  have hexp : expandQuestion (fun l => l.dedup) "tuition" = ["tuition"] := by decide
  have hkw : extractKeywords (fun l => l.dedup) "tuition" = ["tuition"] := by decide
  have hvecs : qaQueryVectors (fun l => l.dedup) (fun _ => [1]) "tuition" = [[1]] := by
    simp [qaQueryVectors, hexp]
  have hboost : qaKeywordBoost ["tuition"] c6Pair = 1/20 := by
    have hc : containsStr (lowerStr c6Pair.question) (lowerStr "tuition") = true := by decide
    rw [qaKeywordBoost]
    simp only [List.filter, hc]
    norm_num
  refine ⟨hvalid, ?_, ?_, ?_⟩
  · have hscore : qaFinalScore (fun _ _ => -1) [[1]] ["tuition"] c6Pair [1] = 1/20 := by
      rw [qaFinalScore]
      simp only [List.foldl, qaKeywordBoost.eq_def]
      have hc : containsStr (lowerStr c6Pair.question) (lowerStr "tuition") = true := by decide
      simp only [List.filter, hc]
      norm_num
    have hmode : qaModeOf c6Cfg = "smart" := by simp [qaModeOf, fixedQaCfgOf, c6Cfg]
    have hdir : qaDirectMatchThresholdOf c6Cfg = 9/10 := by
      norm_num [qaDirectMatchThresholdOf, fixedQaCfgOf, c6Cfg]
    have hsug : qaSuggestThresholdOf c6Cfg = 0 := by
      norm_num [qaSuggestThresholdOf, fixedQaCfgOf, c6Cfg]
    have hmin : qaMinThresholdOf c6Cfg = 0 := by
      norm_num [qaMinThresholdOf, fixedQaCfgOf, c6Cfg]
    have hmax : qaMaxSuggestionsOf c6Cfg = 3 := by
      simp [qaMaxSuggestionsOf, fixedQaCfgOf, c6Cfg]
    have hAll : qaAllMatches (fun _ _ => -1) [[1]] ["tuition"] 0 [c6Pair]
        = [qaMatchResult c6Pair (1/20)] := by
      simp only [qaAllMatches, List.foldl, hscore,
        show c6Pair.embedding_vector = some [1] from rfl,
        show c6Pair.is_active = some true from rfl]
      norm_num
    simp only [searchFixedQa, hvecs, hkw, hmode, hdir, hsug, hmin, hmax, hAll]
    simp [qaSmartSelect, sortDescBy, insDescBy, qaMatchResult, simOf]
    norm_num [List.filter]
  · rw [specQaScore, hvecs, hkw, hboost]
    simp only [List.map, List.foldl]
    norm_num
  · norm_num [qaMinThresholdOf, fixedQaCfgOf, c6Cfg]

/-- Claim C6 amended: every candidate the fixed-Q&A retriever returns
is scored as `min(max(0, best cosine over the expanded-query vectors) +
keyword bonus, 1)` — the best-of-paraphrase maximum is seeded with 0.0,
so negative cosines are floored at zero (the only change the
counterexample forces) — with the keyword bonus 0.05 per literally
contained extracted keyword capped at 0.15; and every returned
candidate's score is at least `qa_min_threshold` (pairs strictly below
the floor are dropped). -/
theorem c6_qa_scoring (pyset : List String → List String) (embed : String → List ℚ)
    (sim : List ℚ → List ℚ → ℚ) (query : String) (pairs : List QaPair)
    (cfg : AppConfig) (present : Bool) :
    ∀ r ∈ searchFixedQa pyset embed sim query pairs cfg present,
      qaMinThresholdOf cfg ≤ r.similarity.getD 0 ∧
      ∃ qa ∈ pairs, ∃ vec, qa.embedding_vector = some vec ∧
        r.similarity = some (min
          (((qaQueryVectors pyset embed query).foldl
              (fun m qv => max m (sim qv vec)) 0)
            + qaKeywordBoost (extractKeywords pyset query) qa) 1) := by
  intro r hr
  let P : Result → Prop := fun x =>
    qaMinThresholdOf cfg ≤ x.similarity.getD 0 ∧
    ∃ qa ∈ pairs, ∃ vec, qa.embedding_vector = some vec ∧
      x.similarity = some (min
        (((qaQueryVectors pyset embed query).foldl
            (fun m qv => max m (sim qv vec)) 0)
          + qaKeywordBoost (extractKeywords pyset query) qa) 1)
  show P r
  have hup : ∀ (m : Result) (t : String), P m → P { m with match_type := some t } := by
    intro m t hm
    exact hm
  have hall : ∀ x ∈ qaAllMatches sim (qaQueryVectors pyset embed query)
      (extractKeywords pyset query) (qaMinThresholdOf cfg) pairs, P x := by
    apply foldl_acc_inv
    · simp
    · intro acc a ha hacc x hx
      rcases hvec : a.embedding_vector with _ | vec
      · rw [hvec] at hx
        exact hacc x hx
      · rw [hvec] at hx
        have hx2 : x ∈ (if vec ≠ [] ∧ a.is_active.getD true = true then
            (if qaMinThresholdOf cfg ≤ qaFinalScore sim (qaQueryVectors pyset embed query)
                (extractKeywords pyset query) a vec then
              acc ++ [qaMatchResult a (qaFinalScore sim (qaQueryVectors pyset embed query)
                (extractKeywords pyset query) a vec)]
            else acc)
          else acc) := hx
        by_cases h1 : vec ≠ [] ∧ a.is_active.getD true = true
        · rw [if_pos h1] at hx2
          by_cases h2 : qaMinThresholdOf cfg ≤ qaFinalScore sim
              (qaQueryVectors pyset embed query) (extractKeywords pyset query) a vec
          · rw [if_pos h2] at hx2
            rcases List.mem_append.mp hx2 with hx3 | hx3
            · exact hacc x hx3
            · rcases List.mem_singleton.mp hx3 with rfl
              refine ⟨by simpa [qaMatchResult] using h2, a, ha, vec, hvec, ?_⟩
              show (qaMatchResult a _).similarity = _
              rw [qaMatchResult]
              rfl
          · rw [if_neg h2] at hx2
            exact hacc x hx2
        · rw [if_neg h1] at hx2
          exact hacc x hx2
  have hsorted : ∀ x ∈ sortDescBy qaSortGt (qaAllMatches sim
      (qaQueryVectors pyset embed query) (extractKeywords pyset query)
      (qaMinThresholdOf cfg) pairs), P x :=
    fun x hx => hall x (mem_sortDescBy.mp hx)
  rw [searchFixedQa] at hr
  by_cases hpe : pairs = [] ∨ ¬ present = true
  · rw [if_pos hpe] at hr
    simp at hr
  · rw [if_neg hpe] at hr
    simp only [] at hr
    split_ifs at hr with hsmart hsuggest hstrict
    · rw [qaSmartSelect] at hr
      refine foldl_accStop_inv P _ _ ([], false) (by simp) ?_ r hr
      intro st a ha hst x hx
      by_cases hstop : st.2 = true
      · rw [if_pos hstop] at hx
        exact hst x hx
      · rw [if_neg hstop] at hx
        by_cases hd : qaDirectMatchThresholdOf cfg ≤ simOf a
        · rw [if_pos hd] at hx
          rcases List.mem_append.mp hx with hx | hx
          · exact hst x hx
          · rcases List.mem_singleton.mp hx with rfl
            exact hup a _ (hsorted a ha)
        · rw [if_neg hd] at hx
          by_cases hs : qaSuggestThresholdOf cfg ≤ simOf a
          · rw [if_pos hs] at hx
            simp only [] at hx
            rcases List.mem_append.mp hx with hx | hx
            · exact hst x hx
            · rcases List.mem_singleton.mp hx with rfl
              exact hup a _ (hsorted a ha)
          · rw [if_neg hs] at hx
            exact hst x hx
    · rw [qaSuggestSelect] at hr
      refine foldl_acc_inv P _ _ [] (by simp) ?_ r hr
      intro acc a ha hacc x hx
      by_cases hs : qaSuggestThresholdOf cfg ≤ simOf a
      · rw [if_pos hs] at hx
        rcases List.mem_append.mp hx with hx | hx
        · exact hacc x hx
        · rcases List.mem_singleton.mp hx with rfl
          exact hup a _ (hsorted a (List.take_subset _ _ ha))
      · rw [if_neg hs] at hx
        exact hacc x hx
    · rw [qaStrictSelect] at hr
      refine foldl_accStop_inv P _ _ ([], false) (by simp) ?_ r hr
      intro st a ha hst x hx
      by_cases hstop : st.2 = true
      · rw [if_pos hstop] at hx
        exact hst x hx
      · rw [if_neg hstop] at hx
        simp only [] at hx
        by_cases hd : qaDirectMatchThresholdOf cfg ≤ simOf a
        · rw [if_pos hd] at hx
          rcases List.mem_append.mp hx with hx | hx
          · exact hst x hx
          · rcases List.mem_singleton.mp hx with rfl
            exact hup a _ (hsorted a ha)
        · rw [if_neg hd] at hx
          exact hst x hx
    · simp at hr

/-- Witness for C6: with a unit cosine the counterexample pair scores
`min(1 + 0.05, 1) = 1` and is returned as a direct match, whose score
meets the configured floor. -/
theorem c6_qa_scoring_witness :
    qaMinThresholdOf c6Cfg ≤
      ({ qaMatchResult c6Pair 1 with match_type := some "direct" } : Result).similarity.getD 0 := by
  have hexp : expandQuestion (fun l => l.dedup) "tuition" = ["tuition"] := by decide
  have hkw : extractKeywords (fun l => l.dedup) "tuition" = ["tuition"] := by decide
  have hvecs : qaQueryVectors (fun l => l.dedup) (fun _ => [1]) "tuition" = [[1]] := by
    simp [qaQueryVectors, hexp]
  have hscore : qaFinalScore (fun _ _ => 1) [[1]] ["tuition"] c6Pair [1] = 1 := by
    rw [qaFinalScore]
    simp only [List.foldl, qaKeywordBoost.eq_def]
    have hc : containsStr (lowerStr c6Pair.question) (lowerStr "tuition") = true := by decide
    simp only [List.filter, hc]
    norm_num
  have hAll : qaAllMatches (fun _ _ => 1) [[1]] ["tuition"] 0 [c6Pair]
      = [qaMatchResult c6Pair 1] := by
    simp only [qaAllMatches, List.foldl, hscore,
      show c6Pair.embedding_vector = some [1] from rfl,
      show c6Pair.is_active = some true from rfl]
    norm_num
  have hmem : ({ qaMatchResult c6Pair 1 with match_type := some "direct" } : Result) ∈
      searchFixedQa (fun l => l.dedup) (fun _ => [1]) (fun _ _ => 1) "tuition" [c6Pair]
        c6Cfg true := by
    simp only [searchFixedQa, hvecs, hkw,
      show qaModeOf c6Cfg = "smart" from by simp [qaModeOf, fixedQaCfgOf, c6Cfg],
      show qaMinThresholdOf c6Cfg = 0 from by
        norm_num [qaMinThresholdOf, fixedQaCfgOf, c6Cfg], hAll]
    simp [qaSmartSelect, sortDescBy, insDescBy, qaMatchResult, simOf,
      qaDirectMatchThresholdOf, fixedQaCfgOf, c6Cfg]
    norm_num
  exact (c6_qa_scoring (fun l => l.dedup) (fun _ => [1]) (fun _ _ => 1) "tuition"
    [c6Pair] c6Cfg true _ hmem).1

/-! ### C7 — fusion determinism (corrected) -/

/-- Python `max(l, key=...)` returns an element of the list. -/
theorem maxByFirst_mem {key : Result → ℚ} {l : List Result} {x : Result}
    (h : maxByFirst key l = some x) : x ∈ l := by
  cases l with
  | nil => simp [maxByFirst] at h
  | cons r rs =>
    rw [maxByFirst, Option.some.injEq] at h
    subst h
    have haux : ∀ r : Result, rs.foldl (fun b y => if key b < key y then y else b) r ∈ r :: rs := by
      induction rs with
      | nil => intro r; simp
      | cons y ys ih =>
        intro r
        rw [List.foldl_cons]
        have hmem := ih (if key r < key y then y else r)
        rcases List.mem_cons.mp hmem with he | hmem
        · rw [he]
          by_cases hk : key r < key y
          · simp [hk]
          · simp [hk]
        · simp [List.mem_cons.mpr (Or.inr (List.mem_cons.mpr (Or.inr hmem)))]
    exact haux r

/-- An `Option.filter` hit comes from the underlying option. -/
theorem optionFilter_eq_some {o : Option Result} {p : Result → Bool} {x : Result}
    (h : o.filter p = some x) : o = some x := by
  cases o with
  | none => simp [Option.filter] at h
  | some a =>
    rw [Option.filter] at h
    by_cases hp : p a
    · rw [if_pos hp] at h
      exact h
    · rw [if_neg hp] at h
      exact absurd h (by simp)

/-- `_extract_date` ignores the clock when the stored `date` is
present. -/
theorem extractDate_time_indep (t1 t2 : String) (r : Result) (h : r.date.isSome) :
    extractDate t1 r = extractDate t2 r := by
  rcases hd : r.date with _ | d
  · rw [hd] at h
    simp at h
  · rw [extractDate, extractDate, hd]

/-- A numbered citation is clock-independent for a date-bearing
candidate. -/
theorem mkNumberedCitation_time_indep (t1 t2 : String) (idx : Nat) (r : Result)
    (h : r.date.isSome) :
    mkNumberedCitation t1 idx r = mkNumberedCitation t2 idx r := by
  rw [mkNumberedCitation, mkNumberedCitation, extractDate_time_indep t1 t2 r h]

/-- Citation lists over date-bearing candidates are clock-independent. -/
theorem genNumberedFrom_time_indep (t1 t2 : String) (idx : Nat) (l : List Result)
    (h : ∀ r ∈ l, r.date.isSome) :
    genNumberedFrom t1 idx l = genNumberedFrom t2 idx l := by
  induction l generalizing idx with
  | nil => rfl
  | cons r rs ih =>
    rw [genNumberedFrom, genNumberedFrom,
      mkNumberedCitation_time_indep t1 t2 idx r (h r (by simp)),
      ih (idx + 1) (fun x hx => h x (by simp [hx]))]

/-- `_generate_numbered_citations` is clock-independent for date-bearing
candidates. -/
theorem generateNumberedCitations_time_indep (t1 t2 : String) (l : List Result)
    (h : ∀ r ∈ l, r.date.isSome) :
    generateNumberedCitations t1 l = generateNumberedCitations t2 l := by
  rw [generateNumberedCitations, generateNumberedCitations]
  exact genNumberedFrom_time_indep t1 t2 1 (l.take 3)
    (fun r hr => h r (List.take_subset _ _ hr))

/-- `apply_strategy` is clock-independent when every candidate carries
a `date` field. -/
theorem applyStrategy_time_indep (t1 t2 : String) (results : List Result)
    (cfg : AppConfig) (h : ∀ r ∈ results, r.date.isSome) :
    applyStrategy t1 results cfg = applyStrategy t2 results cfg := by
  have hkbTake : ∀ r ∈ (kbResultsOf results).take 3, r.date.isSome := by
    intro r hr
    exact h r (List.mem_of_mem_filter (List.take_subset _ _ hr))
  have hwebTake : ∀ r ∈ (webResultsOf results).take 3, r.date.isSome := by
    intro r hr
    exact h r (List.mem_of_mem_filter (List.take_subset _ _ hr))
  rw [applyStrategy, applyStrategy]
  by_cases hne : results = []
  · rw [if_pos hne, if_pos hne]
  · rw [if_neg hne, if_neg hne]
    simp only []
    rcases hqa : (maxByFirst simOf (fixedQaResultsOf results)).filter
        (fun bq => decide (qaDirectThresholdOf cfg ≤ simOf bq)) with _ | bq
    · simp only [hqa]
      have hcitkb : generateNumberedCitations t1 (((kbResultsOf results).take 3).take 3)
          = generateNumberedCitations t2 (((kbResultsOf results).take 3).take 3) :=
        generateNumberedCitations_time_indep t1 t2 _
          (fun r hr => hkbTake r (List.take_subset _ _ hr))
      have hcitweb : generateNumberedCitations t1 ((webResultsOf results).take 3)
          = generateNumberedCitations t2 ((webResultsOf results).take 3) :=
        generateNumberedCitations_time_indep t1 t2 _ hwebTake
      by_cases hhigh : highThresholdOf cfg ≤ (Option.map simOf
          (maxByFirst simOf (kbResultsOf results))).getD 0
      · rw [if_pos hhigh, if_pos hhigh]
        rw [createATierResponse, createATierResponse, hcitkb]
      · rw [if_neg hhigh, if_neg hhigh]
        by_cases hmed : mediumThresholdOf cfg ≤ (Option.map simOf
            (maxByFirst simOf (kbResultsOf results))).getD 0
        · rw [if_pos hmed, if_pos hmed]
          cases hw : webResultsOf results with
          | nil =>
            rw [createBTierResponse, createBTierResponse, hcitkb]
          | cons w ws =>
            have hBw : createBTierWebResponse t1 (w :: ws)
                = createBTierWebResponse t2 (w :: ws) := by
              rw [createBTierWebResponse, createBTierWebResponse,
                show (w :: ws) = webResultsOf results from hw.symm, hcitweb]
            simp only []
            cases shouldUseWebOverKb (maxByFirst simOf (kbResultsOf results))
                (w :: ws) with
            | error e => rfl
            | ok b =>
              cases b with
              | true => simp only [hBw]
              | false =>
                simp only []
                rw [createBTierResponse, createBTierResponse, hcitkb]
        · rw [if_neg hmed, if_neg hmed]
          cases classAttr "MEDIUM_CONFIDENCE_THRESHOLD" with
          | none => rfl
          | some v =>
            have hCw : ∀ bw, cTierWebResponse t1 bw (webResultsOf results)
                = cTierWebResponse t2 bw (webResultsOf results) := by
              intro bw
              rw [cTierWebResponse, cTierWebResponse, hcitweb]
            cases maxByFirst relOrSim (webResultsOf results) with
            | none => rfl
            | some bw =>
              by_cases hrel : (0.60 : ℚ) ≤ relOrSim bw
              · simp only [if_pos hrel, hCw bw]
              · simp only [if_neg hrel]
    · simp only [hqa]
      have hbq : bq ∈ results := by
        have hsome := optionFilter_eq_some hqa
        exact List.mem_of_mem_filter (maxByFirst_mem hsome)
      rw [createATierResponse, createATierResponse,
        generateNumberedCitations_time_indep t1 t2 _ (by
          intro r hr
          have : r ∈ [bq] := List.take_subset _ _ hr
          rcases List.mem_singleton.mp this with rfl
          exact h r hbq)]





/-- Claim C7 counterexample: the accurate-priority fusion output is not
a function of candidates and configuration alone.  A KB candidate
without a stored date gets `datetime.now()` as its citation date, so
two runs on identical input at different dates produce different
`FusionResult`s (their citation `date` fields differ). -/
theorem c7_determinism_counterexample :
    applyFusionStrategy "2025-01-01" [c7Kb] c7Cfg
      ≠ applyFusionStrategy "2025-01-02" [c7Kb] c7Cfg := by
  intro h
  have h2 := congrArg citationDates h
  have heval : ∀ t : String, citationDates (applyFusionStrategy t [c7Kb] c7Cfg)
      = [some t] := by
    intro t
    have happ : applyStrategy t [c7Kb] c7Cfg
        = .ok (createATierResponse t (some c7Kb) [c7Kb]) := by
      simp [applyStrategy, c7Kb, c7Cfg, highThresholdOf, mediumThresholdOf,
        qaDirectThresholdOf, strategyCfgOf, kbResultsOf, webResultsOf, fixedQaResultsOf,
        maxByFirst, simOf, srcOf, webSources, List.filter, Option.filter,
        DEFAULT_HIGH_CONFIDENCE_THRESHOLD]
      norm_num
    simp only [citationDates, applyFusionStrategy,
      show c7Cfg.fusion_strategy.getD "weighted_avg" = "accurate_priority" from rfl,
      show ¬ ([c7Kb] = []) from by simp]
    simp only [happ]
    simp [createATierResponse, generateNumberedCitations, genNumberedFrom,
      mkNumberedCitation, extractDate, srcOf, c7Kb]
  rw [heval "2025-01-01", heval "2025-01-02"] at h2
  simp at h2

/-- Claim C7 amended: the fusion step is deterministic once the current
date is factored out; in particular when every candidate carries an
explicit `date` field the `FusionResult` is a function of the candidate
list and the configuration alone — the `datetime.now()` fallback of
`_extract_date` for date-less candidates is the only
non-input-determined part of the output (timing fields aside). -/
theorem c7_fusion_deterministic (t1 t2 : String) (results : List Result)
    (cfg : AppConfig) (h : ∀ r ∈ results, r.date.isSome) :
    applyFusionStrategy t1 results cfg = applyFusionStrategy t2 results cfg := by
  rw [applyFusionStrategy, applyFusionStrategy]
  by_cases hne : results = []
  · rw [if_pos hne, if_pos hne]
  · rw [if_neg hne, if_neg hne]
    simp only []
    by_cases hacc : cfg.fusion_strategy.getD "weighted_avg" = "accurate_priority"
    · rw [if_pos hacc, if_pos hacc, applyStrategy_time_indep t1 t2 results cfg h]
    · rw [if_neg hacc, if_neg hacc]

/-- Witness for C7: with an explicit candidate date the two runs
coincide. -/
theorem c7_fusion_deterministic_witness :
    applyFusionStrategy "2025-01-01" [c7KbDated] c7Cfg
      = applyFusionStrategy "2025-01-02" [c7KbDated] c7Cfg := by
  apply c7_fusion_deterministic
  intro r hr
  rcases List.mem_singleton.mp hr with rfl
  rfl

/-! ### Claim C8 — question-expansion ordering -/


/-- `c8Set` is a valid model of `list(set(...))`. -/
theorem c8Set_valid : pySetValid c8Set := by
  intro l
  refine ⟨(List.nodup_reverse).mpr l.nodup_dedup, ?_⟩
  intro x
  rw [c8Set, List.mem_reverse, List.mem_dedup]

/-- Claim C8 counterexample: `expand_question` pipes the ordered list
`[original] ++ abbreviation rewrites ++ template rewrites` through
`list(set(...))`, whose iteration order is unspecified; under an
admissible set order the first element of the output is not the
original question. -/
theorem c8_counterexample :
    pySetValid c8Set ∧ (expandQuestion c8Set "ai学费").head? ≠ some "ai学费" := by
  refine ⟨c8Set_valid, ?_⟩
  decide

/-- Claim C8 amended: for every admissible model of `list(set(...))`,
`expand_question` returns a duplicate-free list whose elements are
exactly the original question, the abbreviation rewrites and the
template rewrites — but in an unspecified order. -/
theorem c8_expansion_set (f : List String → List String) (hf : pySetValid f)
    (q : String) :
    (expandQuestion f q).Nodup ∧
    ∀ x, x ∈ expandQuestion f q ↔
      (x = q ∨ x ∈ expandAbbreviations q ∨ x ∈ expandPatterns q) := by
  obtain ⟨hnd, hmem⟩ := hf ([q] ++ expandAbbreviations q ++ expandPatterns q)
  refine ⟨hnd, ?_⟩
  intro x
  rw [expandQuestion, hmem x]
  simp [List.mem_append]

/-- Witness for C8 at a concrete set order and question. -/
theorem c8_expansion_set_witness :
    pySetValid c8Set ∧
    ((expandQuestion c8Set "ai学费").Nodup ∧
      ∀ x, x ∈ expandQuestion c8Set "ai学费" ↔
        (x = "ai学费" ∨ x ∈ expandAbbreviations "ai学费" ∨
          x ∈ expandPatterns "ai学费")) :=
  ⟨c8Set_valid, c8_expansion_set c8Set c8Set_valid "ai学费"⟩

/-! ### Claim C9 — citations of a web winner -/

/-- One numbered citation per result. -/
theorem genNumberedFrom_length (now : String) (idx : Nat) (l : List Result) :
    (genNumberedFrom now idx l).length = l.length := by
  induction l generalizing idx with
  | nil => rfl
  | cons r rs ih => rw [genNumberedFrom, List.length_cons, List.length_cons, ih]

/-- `_generate_numbered_citations` emits at most three citations. -/
theorem generateNumberedCitations_length_le (now : String) (l : List Result) :
    (generateNumberedCitations now l).length ≤ 3 := by
  rw [generateNumberedCitations, genNumberedFrom_length, List.length_take]
  exact Nat.min_le_left _ _

/-- Pre-truncating to three results does not change the citation list. -/
theorem generateNumberedCitations_take (now : String) (l : List Result) :
    generateNumberedCitations now (l.take 3) = generateNumberedCitations now l := by
  rw [generateNumberedCitations, generateNumberedCitations, List.take_take]
  simp

/-- A citation built from a web-source result has type `web`. -/
theorem mkNumberedCitation_web (now : String) (idx : Nat) (r : Result)
    (h : srcOf r ∈ webSources) : (mkNumberedCitation now idx r).ctype = "web" := by
  have hkb : ¬ srcOf r = "kb" := by
    intro he; rw [he] at h; exact absurd h (by decide)
  have hqa : ¬ srcOf r = "fixed_qa" := by
    intro he; rw [he] at h; exact absurd h (by decide)
  rw [mkNumberedCitation, if_neg hkb, if_neg hqa]
  by_cases hta : srcOf r = "tavily_answer"
  · rw [if_pos hta]
  · rw [if_neg hta]

/-- All citations generated from web-source results have type `web`. -/
theorem genNumberedFrom_web (now : String) (idx : Nat) (l : List Result)
    (h : ∀ r ∈ l, srcOf r ∈ webSources) :
    ∀ ci ∈ genNumberedFrom now idx l, ci.ctype = "web" := by
  induction l generalizing idx with
  | nil => intro ci hci; simp [genNumberedFrom] at hci
  | cons r rs ih =>
    intro ci hci
    rw [genNumberedFrom] at hci
    rcases List.mem_cons.mp hci with he | hci
    · rw [he]; exact mkNumberedCitation_web now idx r (h r (by simp))
    · exact ih (idx + 1) (fun x hx => h x (by simp [hx])) ci hci

/-- All citations of `_generate_numbered_citations` over web-source
results have type `web`. -/
theorem generateNumberedCitations_web (now : String) (l : List Result)
    (h : ∀ r ∈ l, srcOf r ∈ webSources) :
    ∀ ci ∈ generateNumberedCitations now l, ci.ctype = "web" := by
  rw [generateNumberedCitations]
  exact genNumberedFrom_web now 1 (l.take 3) (fun r hr => h r (List.take_subset _ _ hr))

/-- The best KB candidate is never web-sourced. -/
theorem kbMax_not_web {results : List Result} {x : Result}
    (hx : maxByFirst simOf (kbResultsOf results) = some x) :
    srcOf x ∉ webSources := by
  intro hxw
  have hmem := maxByFirst_mem hx
  rw [kbResultsOf] at hmem
  have hpx := List.of_mem_filter hmem
  have hsrc : srcOf x = "kb" := of_decide_eq_true hpx
  rw [hsrc] at hxw
  exact absurd hxw (by decide)

/-- When the final result of `apply_strategy` is a web candidate, the
attached citations are exactly the numbered citations of the first
three web candidates in input order. -/
theorem applyStrategy_web_citations (now : String) (results : List Result)
    (cfg : AppConfig) (sr : StratResponse) (fr : Result)
    (hrun : applyStrategy now results cfg = .ok sr)
    (hfin : sr.final_result = some fr)
    (hweb : srcOf fr ∈ webSources) :
    sr.citations = generateNumberedCitations now ((webResultsOf results).take 3) := by
  rw [applyStrategy] at hrun
  by_cases hne : results = []
  · rw [if_pos hne] at hrun
    rw [← Except.ok.inj hrun] at hfin
    simp [createCTierResponse] at hfin
  · rw [if_neg hne] at hrun
    simp only [] at hrun
    rcases hqa : Option.filter (fun bq => decide (qaDirectThresholdOf cfg ≤ simOf bq))
        (maxByFirst simOf (fixedQaResultsOf results)) with _ | bq
    · rw [hqa] at hrun
      simp only [] at hrun
      by_cases hhigh : highThresholdOf cfg ≤
          (Option.map simOf (maxByFirst simOf (kbResultsOf results))).getD 0
      · rw [if_pos hhigh] at hrun
        rw [← Except.ok.inj hrun] at hfin
        simp [createATierResponse] at hfin
        exact absurd hweb (kbMax_not_web hfin)
      · rw [if_neg hhigh] at hrun
        by_cases hmed : mediumThresholdOf cfg ≤
            (Option.map simOf (maxByFirst simOf (kbResultsOf results))).getD 0
        · rw [if_pos hmed] at hrun
          rcases hw : webResultsOf results with _ | ⟨w, ws⟩
          · rw [hw] at hrun
            simp only [] at hrun
            rw [← Except.ok.inj hrun] at hfin
            simp [createBTierResponse] at hfin
            exact absurd hweb (kbMax_not_web hfin)
          · rw [hw] at hrun
            simp only [] at hrun
            rcases hsw : shouldUseWebOverKb (maxByFirst simOf (kbResultsOf results))
                (w :: ws) with e | b
            · rw [hsw] at hrun
              exact absurd hrun (by simp)
            · rw [hsw] at hrun
              cases b with
              | false =>
                simp only [] at hrun
                rw [← Except.ok.inj hrun] at hfin
                simp [createBTierResponse] at hfin
                exact absurd hweb (kbMax_not_web hfin)
              | true =>
                simp only [] at hrun
                rw [← Except.ok.inj hrun]
                rfl
        · rw [if_neg hmed] at hrun
          rw [show classAttr "MEDIUM_CONFIDENCE_THRESHOLD" = none from rfl] at hrun
          exact absurd hrun (by simp)
    · rw [hqa] at hrun
      simp only [] at hrun
      rw [← Except.ok.inj hrun] at hfin
      simp [createATierResponse] at hfin
      have hmem := maxByFirst_mem (optionFilter_eq_some hqa)
      rw [fixedQaResultsOf] at hmem
      rw [← hfin] at hweb
      have hpq := List.of_mem_filter hmem
      have hsrc : srcOf bq = "fixed_qa" := of_decide_eq_true hpq
      rw [hsrc] at hweb
      exact absurd hweb (by decide)










/-- Concrete run of the fusion step on the C9 input: tier-B web
override, winner `c9WebB`. -/
theorem c9_run_eq : applyFusionStrategy c9Now c9Results c9Cfg = .ok (some c9Winner) := by
  have hqa : Option.filter (fun bq => decide (qaDirectThresholdOf c9Cfg ≤ simOf bq))
      (maxByFirst simOf (fixedQaResultsOf c9Results)) = none := by
    simp [fixedQaResultsOf, maxByFirst, srcOf, c9Results, c9Kb, c9WebA, c9WebB,
      List.filter, Option.filter]
  have hbk : maxByFirst simOf (kbResultsOf c9Results) = some c9Kb := by
    simp [kbResultsOf, maxByFirst, srcOf, c9Results, c9Kb, c9WebA, c9WebB, List.filter]
  have hwebr : webResultsOf c9Results = [c9WebA, c9WebB] := by
    simp [webResultsOf, srcOf, c9Results, c9Kb, c9WebA, c9WebB, List.filter, webSources]
  have hks : (Option.map simOf (maxByFirst simOf (kbResultsOf c9Results))).getD 0
      = 3/4 := by
    rw [hbk]
    norm_num [simOf, c9Kb]
  have hcp : consensusScorePasses [c9WebA, c9WebB] = true := by
    rw [consensusScorePasses]
    rw [if_neg (by decide : ¬ ([c9WebA, c9WebB].length < 2))]
    rw [if_neg (by decide : ¬ (consensusDomains [c9WebA, c9WebB] < 2))]
    rw [decide_eq_true_eq]
    constructor
    · norm_num [meanQ, simsOf, simOf, c9WebA, c9WebB, WEB_CONSENSUS_THRESHOLD]
    · norm_num [meanQ, varQ, simsOf, simOf, c9WebA, c9WebB, WEB_CONSENSUS_THRESHOLD]
  have hevA : resultEvidence c9WebA = 3/2 := by
    unfold resultEvidence
    rw [if_neg (by decide : ¬ (srcOf c9WebA = "tavily_answer"))]
    simp only []
    rw [if_pos (by decide), if_pos (by decide)]
    norm_num
  have hevB : resultEvidence c9WebB = 3/2 := by
    unfold resultEvidence
    rw [if_neg (by decide : ¬ (srcOf c9WebB = "tavily_answer"))]
    simp only []
    rw [if_pos (by decide), if_pos (by decide)]
    norm_num
  have hts : checkTimestampEvidence [c9WebA, c9WebB] = true := by
    rw [checkTimestampEvidence, decide_eq_true_eq,
      show evidenceScore [c9WebA, c9WebB] = resultEvidence c9WebA + resultEvidence c9WebB
        from by simp [evidenceScore],
      hevA, hevB]
    norm_num
  have hsw : shouldUseWebOverKb (some c9Kb) [c9WebA, c9WebB] = .ok true := by
    rw [shouldUseWebOverKb]
    rw [if_neg (by simp [hcp])]
    simp only []
    rw [if_neg (by norm_num [maxKeyVal, simOf, c9Kb, c9WebA, c9WebB,
      WEB_ADVANTAGE_THRESHOLD])]
    rw [hts]
  have hstep : applyStrategy c9Now c9Results c9Cfg
      = .ok (createBTierWebResponse c9Now [c9WebA, c9WebB]) := by
    rw [applyStrategy]
    rw [if_neg (by simp [c9Results] : ¬ (c9Results = []))]
    simp only []
    rw [hqa]
    simp only []
    rw [hks]
    rw [if_neg (by norm_num [highThresholdOf, strategyCfgOf, c9Cfg,
      DEFAULT_HIGH_CONFIDENCE_THRESHOLD])]
    rw [if_pos (by norm_num [mediumThresholdOf, strategyCfgOf, c9Cfg,
      DEFAULT_MEDIUM_CONFIDENCE_THRESHOLD])]
    rw [hwebr]
    simp only []
    rw [hbk, hsw]
  have hbw : maxByFirst relOrSim [c9WebA, c9WebB] = some c9WebB := by
    norm_num [maxByFirst, relOrSim, simOf, c9WebA, c9WebB]
  rw [applyFusionStrategy]
  rw [if_neg (by simp [c9Results] : ¬ (c9Results = []))]
  simp only []
  rw [if_pos (show c9Cfg.fusion_strategy.getD "weighted_avg" = "accurate_priority"
    from rfl)]
  rw [hstep]
  simp only []
  rw [show (createBTierWebResponse c9Now [c9WebA, c9WebB]).final_result
    = some c9WebB from hbw]
  rfl


/-- Claim C9 counterexample: on a tier-B web override the citations are
the first three web candidates in input order — here with internal
scores 0.91 then 0.95 — so they are **not** ordered by descending
relevance. -/
theorem c9_counterexample :
    citScoresOf (applyFusionStrategy c9Now c9Results c9Cfg)
        = some ("tavily_web", [91/100, 95/100]) ∧
    ¬ List.Pairwise (fun a b : ℚ => b ≤ a) [91/100, 95/100] := by
  constructor
  · rw [c9_run_eq]
    simp [citScoresOf, c9Winner, c9Info, c9Citations, srcOf, c9WebA, c9WebB,
      generateNumberedCitations, genNumberedFrom, mkNumberedCitation, relOrSim, simOf]
  · intro hp
    rcases List.pairwise_cons.mp hp with ⟨h1, _⟩
    have := h1 (95/100) (by simp)
    norm_num at this

/-- One unified citation per result. -/
theorem genUnifiedFrom_length (idx : Nat) (l : List Result) :
    (genUnifiedFrom idx l).length = l.length := by
  induction l generalizing idx with
  | nil => rfl
  | cons r rs ih => rw [genUnifiedFrom, List.length_cons, List.length_cons, ih]

/-- A unified citation built from a web-source result has type `web`. -/
theorem mkUnifiedCitation_web (idx : Nat) (r : Result)
    (h : srcOf r ∈ webSources) : (mkUnifiedCitation idx r).ctype = "web" := by
  have hkb : ¬ srcOf r = "kb" := by
    intro he; rw [he] at h; exact absurd h (by decide)
  have hqa : ¬ srcOf r = "fixed_qa" := by
    intro he; rw [he] at h; exact absurd h (by decide)
  rw [mkUnifiedCitation, if_neg hkb, if_neg hqa]
  by_cases hta : srcOf r = "tavily_answer"
  · rw [if_pos hta]
  · rw [if_neg hta]
    have hw : srcOf r = "web" ∨ srcOf r = "tavily_web" := by
      rcases (by simpa [webSources] using h : srcOf r = "web" ∨
          srcOf r = "tavily_answer" ∨ srcOf r = "tavily_web") with h1 | h1 | h1
      · exact Or.inl h1
      · exact absurd h1 hta
      · exact Or.inr h1
    rw [if_pos hw]

/-- A unified citation built from a web-source result records the
result's relevance as its internal score. -/
theorem mkUnifiedCitation_score (idx : Nat) (r : Result)
    (h : srcOf r ∈ webSources) :
    (mkUnifiedCitation idx r).internal_score = relOrSim r := by
  have hkb : ¬ srcOf r = "kb" := by
    intro he; rw [he] at h; exact absurd h (by decide)
  have hqa : ¬ srcOf r = "fixed_qa" := by
    intro he; rw [he] at h; exact absurd h (by decide)
  rw [mkUnifiedCitation, if_neg hkb, if_neg hqa]
  by_cases hta : srcOf r = "tavily_answer"
  · rw [if_pos hta]
  · rw [if_neg hta]
    have hw : srcOf r = "web" ∨ srcOf r = "tavily_web" := by
      rcases (by simpa [webSources] using h : srcOf r = "web" ∨
          srcOf r = "tavily_answer" ∨ srcOf r = "tavily_web") with h1 | h1 | h1
      · exact Or.inl h1
      · exact absurd h1 hta
      · exact Or.inr h1
    rw [if_pos hw]

/-- All unified citations over web-source results have type `web`. -/
theorem genUnifiedFrom_web (idx : Nat) (l : List Result)
    (h : ∀ r ∈ l, srcOf r ∈ webSources) :
    ∀ ci ∈ genUnifiedFrom idx l, ci.ctype = "web" := by
  induction l generalizing idx with
  | nil => intro ci hci; simp [genUnifiedFrom] at hci
  | cons r rs ih =>
    intro ci hci
    rw [genUnifiedFrom] at hci
    rcases List.mem_cons.mp hci with he | hci
    · rw [he]; exact mkUnifiedCitation_web idx r (h r (by simp))
    · exact ih (idx + 1) (fun x hx => h x (by simp [hx])) ci hci

/-- The internal scores of unified citations over web-source results
are the results' relevances, in order. -/
theorem genUnifiedFrom_scores (idx : Nat) (l : List Result)
    (h : ∀ r ∈ l, srcOf r ∈ webSources) :
    (genUnifiedFrom idx l).map (fun ci => ci.internal_score) = l.map relOrSim := by
  induction l generalizing idx with
  | nil => rfl
  | cons r rs ih =>
    rw [genUnifiedFrom, List.map_cons, List.map_cons,
      mkUnifiedCitation_score idx r (h r (by simp)),
      ih (idx + 1) (fun x hx => h x (by simp [hx]))]

/-- Everything in the sorted-and-truncated web selection is a web
candidate. -/
theorem sortedWebTake_mem (results : List Result) :
    ∀ x ∈ (sortDescBy (keyGt relOrSim) (webResultsOf results)).take 3,
      srcOf x ∈ webSources := by
  intro x hx
  have hx2 := List.take_subset _ _ hx
  have hx3 := mem_sortDescBy.mp hx2
  rw [webResultsOf] at hx3
  have hpx := List.of_mem_filter hx3
  exact of_decide_eq_true hpx

/-- The unified strategy info attached to a web-sourced fusion winner:
citations are the web candidates sorted by relevance descending, at most
three, all of type `web`, with descending internal scores. -/
theorem attachUnified_web_info (fin2 : Result) (results : List Result)
    (cfg : AppConfig) (info : StrategyInfo)
    (hinfo : (attachUnified fin2 results cfg).strategy_info = some info)
    (hweb : srcOf fin2 ∈ webSources) :
    info.citations = generateUnifiedCitations
        ((sortDescBy (keyGt relOrSim) (webResultsOf results)).take 3) ∧
    info.citations.length ≤ 3 ∧
    (∀ ci ∈ info.citations, ci.ctype = "web") ∧
    List.Pairwise (fun a b : Citation => b.internal_score ≤ a.internal_score)
      info.citations := by
  have hinfoEq : generateUnifiedStrategyInfo fin2 results cfg = info :=
    Option.some.inj hinfo
  have hrel : getRelevantResultsForCitations fin2 results
      = (sortDescBy (keyGt relOrSim) (webResultsOf results)).take 3 := by
    rw [getRelevantResultsForCitations, if_pos (decide_eq_true hweb)]
    rfl
  have hcit : info.citations = generateUnifiedCitations
      ((sortDescBy (keyGt relOrSim) (webResultsOf results)).take 3) := by
    rw [← hinfoEq]
    show generateUnifiedCitations (getRelevantResultsForCitations fin2 results) = _
    rw [hrel]
  have hmem3 := sortedWebTake_mem results
  refine ⟨hcit, ?_, ?_, ?_⟩
  · rw [hcit, generateUnifiedCitations, genUnifiedFrom_length, List.length_take]
    exact Nat.min_le_left _ _
  · rw [hcit, generateUnifiedCitations]
    exact genUnifiedFrom_web 1 _ hmem3
  · rw [hcit, generateUnifiedCitations]
    have hps : ((sortDescBy (keyGt relOrSim) (webResultsOf results)).take 3).Pairwise
        (fun a b => relOrSim b ≤ relOrSim a) :=
      List.Pairwise.sublist (List.take_sublist _ _) (pairwise_sortDescBy relOrSim _)
    have h1 : ((genUnifiedFrom 1
          ((sortDescBy (keyGt relOrSim) (webResultsOf results)).take 3)).map
        (fun ci => ci.internal_score)).Pairwise (fun a b : ℚ => b ≤ a) := by
      rw [genUnifiedFrom_scores 1 _ hmem3]
      exact List.pairwise_map.mpr hps
    exact List.pairwise_map.mp h1

/-- The conclusion of the C9 theorem on every unified-path branch
(winner returned as `attachUnified fin2 results cfg`). -/
theorem unifiedBranch (now : String) (results : List Result) (cfg : AppConfig)
    (r : Result) (info : StrategyInfo) (fin2 : Result)
    (hacc : ¬ cfg.fusion_strategy.getD "weighted_avg" = "accurate_priority")
    (hr : attachUnified fin2 results cfg = r)
    (hinfo : r.strategy_info = some info)
    (hweb : srcOf r ∈ webSources) :
    info.citations.length ≤ 3 ∧
    (∀ ci ∈ info.citations, ci.ctype = "web") ∧
    (if cfg.fusion_strategy.getD "weighted_avg" = "accurate_priority" then
      info.citations = generateNumberedCitations now (webResultsOf results)
    else
      info.citations = generateUnifiedCitations
          ((sortDescBy (keyGt relOrSim) (webResultsOf results)).take 3) ∧
      List.Pairwise (fun a b : Citation => b.internal_score ≤ a.internal_score)
        info.citations) := by
  subst hr
  have hweb2 : srcOf fin2 ∈ webSources := hweb
  obtain ⟨hcit, hlen, hctype, hpair⟩ :=
    attachUnified_web_info fin2 results cfg info hinfo hweb2
  refine ⟨hlen, hctype, ?_⟩
  rw [if_neg hacc]
  exact ⟨hcit, hpair⟩

/-- Claim C9 amended: whenever the fusion winner is web-sourced (for
input candidates carrying no preset strategy info), the attached
citations are drawn from web candidates only — every citation has type
`web` — and number at most three.  On the accurate-priority path they
are the numbered citations of the first three web candidates in input
order (not re-sorted); on the unified path of every other strategy they
are the web candidates sorted by relevance descending and truncated to
three, so their internal scores are descending. -/
theorem c9_web_winner_citations (now : String) (results : List Result)
    (cfg : AppConfig) (r : Result) (info : StrategyInfo)
    (hclean : ∀ x ∈ results, x.strategy_info = none)
    (h : applyFusionStrategy now results cfg = .ok (some r))
    (hinfo : r.strategy_info = some info)
    (hweb : srcOf r ∈ webSources) :
    info.citations.length ≤ 3 ∧
    (∀ ci ∈ info.citations, ci.ctype = "web") ∧
    (if cfg.fusion_strategy.getD "weighted_avg" = "accurate_priority" then
      info.citations = generateNumberedCitations now (webResultsOf results)
    else
      info.citations = generateUnifiedCitations
          ((sortDescBy (keyGt relOrSim) (webResultsOf results)).take 3) ∧
      List.Pairwise (fun a b : Citation => b.internal_score ≤ a.internal_score)
        info.citations) := by
  rw [applyFusionStrategy] at h
  by_cases hne : results = []
  · rw [if_pos hne] at h
    simp at h
  · rw [if_neg hne] at h
    simp only [] at h
    by_cases hacc : cfg.fusion_strategy.getD "weighted_avg" = "accurate_priority"
    · rw [if_pos hacc] at h
      revert h
      cases hrun : applyStrategy now results cfg with
      | error e =>
        intro h
        exact absurd h (by simp)
      | ok sr =>
        intro h
        simp only [] at h
        revert h
        cases hfin : sr.final_result with
        | none =>
          intro h
          simp only [] at h
          have hr := Option.some.inj (Except.ok.inj h)
          rw [← hr] at hweb
          simp [srcOf, webSources] at hweb
        | some fr =>
          intro h
          simp only [] at h
          have hr := Option.some.inj (Except.ok.inj h)
          have hweb2 : srcOf fr ∈ webSources := by
            rw [← hr] at hweb
            exact hweb
          have hcit : sr.citations
              = generateNumberedCitations now ((webResultsOf results).take 3) :=
            applyStrategy_web_citations now results cfg sr fr hrun hfin hweb2
          have hic : info.citations = sr.citations := by
            rw [← hr] at hinfo
            have := Option.some.inj hinfo
            rw [← this]
          have hwmem : ∀ x ∈ (webResultsOf results).take 3, srcOf x ∈ webSources := by
            intro x hx
            have hx2 : x ∈ webResultsOf results := List.take_subset _ _ hx
            rw [webResultsOf] at hx2
            have hpx := List.of_mem_filter hx2
            exact of_decide_eq_true hpx
          refine ⟨?_, ?_, ?_⟩
          · rw [hic, hcit]
            exact generateNumberedCitations_length_le now _
          · rw [hic, hcit]
            exact generateNumberedCitations_web now _ hwmem
          · rw [if_pos hacc, hic, hcit, generateNumberedCitations_take]
    · rw [if_neg hacc] at h
      by_cases hkbp : cfg.fusion_strategy.getD "weighted_avg" = "kb_priority"
      · rw [if_pos hkbp] at h
        rcases Option.map_eq_some'.mp (Except.ok.inj h) with ⟨fin2, _, hr⟩
        exact unifiedBranch now results cfg r info fin2 hacc hr hinfo hweb
      · rw [if_neg hkbp] at h
        by_cases hpri : cfg.fusion_strategy.getD "weighted_avg" = "priority"
        · rw [if_pos hpri] at h
          revert h
          cases hfs : ["fixed_qa", "kb", "web"].findSome?
              (fun st => results.find? (fun x =>
                srcOf x = st && decide (cfg.similarity_threshold_high.getD 0.90 ≤ simOf x)))
              with
          | none =>
            intro h
            simp only [] at h
            rcases Option.map_eq_some'.mp (Except.ok.inj h) with ⟨fin2, _, hr⟩
            exact unifiedBranch now results cfg r info fin2 hacc hr hinfo hweb
          | some x =>
            intro h
            simp only [] at h
            have hr := Option.some.inj (Except.ok.inj h)
            exact unifiedBranch now results cfg r info x hacc hr hinfo hweb
        · rw [if_neg hpri] at h
          by_cases hwavg : cfg.fusion_strategy.getD "weighted_avg" = "weighted_avg"
          · rw [if_pos hwavg] at h
            rcases Option.map_eq_some'.mp (Except.ok.inj h) with ⟨fin2, _, hr⟩
            exact unifiedBranch now results cfg r info fin2 hacc hr hinfo hweb
          · rw [if_neg hwavg] at h
            by_cases hmax : cfg.fusion_strategy.getD "weighted_avg" = "max_score"
            · rw [if_pos hmax] at h
              rcases Option.map_eq_some'.mp (Except.ok.inj h) with ⟨fin2, _, hr⟩
              exact unifiedBranch now results cfg r info fin2 hacc hr hinfo hweb
            · rw [if_neg hmax] at h
              by_cases hvote : cfg.fusion_strategy.getD "weighted_avg" = "voting"
              · rw [if_pos hvote] at h
                rcases Option.map_eq_some'.mp (Except.ok.inj h) with ⟨fin2, _, hr⟩
                exact unifiedBranch now results cfg r info fin2 hacc hr hinfo hweb
              · rw [if_neg hvote] at h
                by_cases hmulti : cfg.fusion_strategy.getD "weighted_avg"
                    = "multi_source_fusion"
                · rw [if_pos hmulti] at h
                  by_cases hhq : results.filter
                      (fun x => decide (cfg.similarity_threshold_low.getD 0.75 ≤ simOf x))
                      = []
                  · rw [if_pos hhq] at h
                    have hh := Except.ok.inj h
                    have hmem : r ∈ results := by
                      cases results with
                      | nil => simp at hh
                      | cons a as =>
                        have : a = r := by simpa using hh
                        rw [← this]
                        exact List.mem_cons_self a as
                    rw [hclean r hmem] at hinfo
                    exact Option.noConfusion hinfo
                  · rw [if_neg hhq] at h
                    have hh := Except.ok.inj h
                    have hmem := List.mem_of_mem_filter (maxByFirst_mem hh)
                    rw [hclean r hmem] at hinfo
                    exact Option.noConfusion hinfo
                · rw [if_neg hmulti] at h
                  rcases Option.map_eq_some'.mp (Except.ok.inj h) with ⟨fin2, _, hr⟩
                  exact unifiedBranch now results cfg r info fin2 hacc hr hinfo hweb

/-- Concrete run of the `weighted_avg` strategy on the unified-path C9
input: the winner is the second web candidate with unified info
attached. -/
theorem c9U_run_eq : applyFusionStrategy c9Now c9UResults c9UCfg
    = .ok (some (attachUnified c9UWeb2 c9UResults c9UCfg)) := by
  have hsort : sortDescBy (keyGt (fun x => x.weighted_score.getD 0)) c9UResults
      = [c9UWeb2, c9UWeb1] := by
    norm_num [c9UResults, sortDescBy, insDescBy, keyGt, c9UWeb1, c9UWeb2,
      c9WebA, c9WebB]
  rw [applyFusionStrategy]
  rw [if_neg (by simp [c9UResults] : ¬ (c9UResults = []))]
  simp only []
  rw [if_neg (by decide : ¬ (c9UCfg.fusion_strategy.getD "weighted_avg"
    = "accurate_priority"))]
  rw [if_neg (by decide : ¬ (c9UCfg.fusion_strategy.getD "weighted_avg"
    = "kb_priority"))]
  rw [if_neg (by decide : ¬ (c9UCfg.fusion_strategy.getD "weighted_avg"
    = "priority"))]
  rw [if_pos (by decide : c9UCfg.fusion_strategy.getD "weighted_avg"
    = "weighted_avg")]
  rw [hsort]
  rfl

/-- Witness for C9 on the unified-path input: the `weighted_avg` winner
is web-sourced and its citations are web-only, at most three and
descending. -/
theorem c9_web_winner_citations_witness :
    (∀ x ∈ c9UResults, x.strategy_info = none) ∧
    (c9UInfo.citations.length ≤ 3 ∧
     (∀ ci ∈ c9UInfo.citations, ci.ctype = "web") ∧
     (if c9UCfg.fusion_strategy.getD "weighted_avg" = "accurate_priority" then
       c9UInfo.citations = generateNumberedCitations c9Now (webResultsOf c9UResults)
     else
       c9UInfo.citations = generateUnifiedCitations
           ((sortDescBy (keyGt relOrSim) (webResultsOf c9UResults)).take 3) ∧
       List.Pairwise (fun a b : Citation => b.internal_score ≤ a.internal_score)
         c9UInfo.citations)) :=
  ⟨by decide, c9_web_winner_citations c9Now c9UResults c9UCfg
    (attachUnified c9UWeb2 c9UResults c9UCfg) c9UInfo (by decide) c9U_run_eq rfl
    (by decide)⟩

end CBIT
